import Mathlib

/-!
Verification of the vibes session run engine (src/vibes.py).

The Python source is shallowly embedded: text is modelled as `String`
(a wrapper around `List Char`), JSON records as an inductive `Json`
type, and each Python helper is translated into a Lean definition of
the same name (without the leading underscore).  Stateful methods are
modelled as explicit state-passing functions.
-/

set_option maxRecDepth 10000

namespace Vibes

/-! ## Basic Python string primitives -/

/-- Characters treated as whitespace by Python `str.strip()` / `str.isspace()`
(restricted to the one-byte range actually produced by the program). -/
def isPySpace (c : Char) : Bool :=
  c = ' ' || c = '\t' || c = '\n' || c = '\x0d' || c = '\x0b' || c = '\x0c'

/-- Python `s.strip()`: drop whitespace from both ends. -/
def py_strip (s : String) : String :=
  ⟨((s.data.dropWhile isPySpace).reverse.dropWhile isPySpace).reverse⟩

/-- Python `s.strip(ch)` for a single character argument. -/
def py_strip_char (s : String) (ch : Char) : String :=
  ⟨((s.data.dropWhile (· = ch)).reverse.dropWhile (· = ch)).reverse⟩

/-- Python `s.lstrip()`. -/
def py_lstrip (s : String) : String :=
  ⟨s.data.dropWhile isPySpace⟩

/-- Python `s.rstrip(ch)` for a single character argument. -/
def py_rstrip_char (s : String) (ch : Char) : String :=
  ⟨(s.data.reverse.dropWhile (· = ch)).reverse⟩

/-- Python slice `s[:k]`. -/
def py_take (s : String) (k : Nat) : String := ⟨s.data.take k⟩

/-- Python slice `s[-k:]`.  Note the Python quirk: `s[-0:]` is the whole
string, not the empty string. -/
def py_take_right (s : String) (k : Nat) : String :=
  if k = 0 then s else ⟨s.data.drop (s.data.length - k)⟩

/-- `pat` occurs at the start of `s` (`str.startswith`). -/
def listStartsWith : List Char → List Char → Bool
  | [], _ => true
  | _ :: _, [] => false
  | p :: ps, c :: cs => p = c && listStartsWith ps cs

/-- Python `s.startswith(pat)`. -/
def py_startswith (s pat : String) : Bool :=
  listStartsWith pat.data s.data

/-- Python `s.endswith(pat)`. -/
def py_endswith (s pat : String) : Bool :=
  listStartsWith pat.data.reverse s.data.reverse

/-- `pat` occurs somewhere inside `s` (Python `pat in s`). -/
def listContainsSub (pat : List Char) : List Char → Bool
  | [] => pat.isEmpty
  | c :: cs => listStartsWith pat (c :: cs) || listContainsSub pat cs

/-- Python `pat in s` for strings. -/
def py_contains (s pat : String) : Bool :=
  listContainsSub pat.data s.data

/-- Python `sep.join(parts)`. -/
def py_join (sep : String) : List String → String
  | [] => ""
  | [x] => x
  | x :: y :: rest => x ++ sep ++ py_join sep (y :: rest)

/-! ## `html.escape` (with `quote=True`, as used by the source) -/

/-- Translation of one character under Python `html.escape`. -/
def escChar (c : Char) : List Char :=
  if c = '&' then "&amp;".data
  else if c = '<' then "&lt;".data
  else if c = '>' then "&gt;".data
  else if c = '"' then "&quot;".data
  else if c = '\x27' then "&#x27;".data
  else [c]

/-- Python `html.escape(s)` (quote mode, the default used by the source). -/
def html_escape (s : String) : String :=
  ⟨s.data.flatMap escChar⟩

/-! ## `_truncate_text` (vibes.py line 700) -/

/-- `_truncate_text`: keep a head and a tail around a truncation marker. -/
def truncate_text (text : String) (limit : Nat) : String :=
  if text.length ≤ limit then text
  else
    let head := limit / 2 - 10
    let tail := limit - head - 20
    py_take text head ++ "\n…(обрезано)…\n" ++ py_take_right text tail

/-! ## Segments (vibes.py line 1158) -/

/-- One ordered unit of rendered output: `kind` is `"text"` or `"code"`. -/
structure Segment where
  kind : String
  content : String
deriving DecidableEq, Repr

/-- `Segment.plain_len`. -/
def Segment.plain_len (seg : Segment) : Nat := seg.content.length

/-- `Segment.render_html`. -/
def Segment.render_html (seg : Segment) : String :=
  if seg.kind = "code" then "<pre><code>" ++ html_escape seg.content ++ "</code></pre>"
  else html_escape seg.content

/-! ## `TelegramStream.add_text` / `add_code` (log-segment evolution) -/

/-- Effect of `TelegramStream.add_text` on the `_log_segments` list. -/
def add_text (segs : List Segment) (text : String) : List Segment :=
  if text = "" then segs
  else
    match segs.reverse with
    | [] => [⟨"text", text⟩]
    | last :: restRev =>
      if last.kind = "text" then (⟨last.kind, last.content ++ text⟩ :: restRev).reverse
      else (⟨"text", text⟩ :: last :: restRev).reverse

/-- Effect of `TelegramStream.add_code` on the `_log_segments` list. -/
def add_code (segs : List Segment) (code : String) : List Segment :=
  if code = "" then segs
  else
    let segs1 :=
      match segs.reverse with
      | [] => segs ++ [⟨"text", "\n"⟩]
      | last :: _ =>
        if py_endswith last.content "\n" then segs else segs ++ [⟨"text", "\n"⟩]
    segs1 ++ [⟨"code", code⟩, ⟨"text", "\n"⟩]

/-- One buffered call against the stream's log. -/
inductive StreamCall where
  | text (s : String)
  | code (s : String)
deriving DecidableEq, Repr

/-- Replay a sequence of `add_text` / `add_code` calls from an empty log. -/
def applyCalls (calls : List StreamCall) : List Segment :=
  calls.foldl (fun segs call =>
    match call with
    | .text s => add_text segs s
    | .code s => add_code segs s) []

/-! ## `TelegramStream._tail_segments` (vibes.py line 1316) -/

/-- The "previous output hidden" marker segment. -/
def hiddenMarker : Segment := ⟨"text", "…previous output hidden…\n\n"⟩

/-- The accumulation loop of `_tail_segments` over the reversed segment
list, after the first reversed segment has been kept: keeps segments while
the running total fits the budget and stops at the first that does not. -/
def tailGo (maxPlain : Nat) : List Segment → Nat → List Segment
  | [], _ => []
  | seg :: rest, total =>
    if total + seg.plain_len ≤ maxPlain then seg :: tailGo maxPlain rest (total + seg.plain_len)
    else []

/-- The `kept_rev` list built by `_tail_segments` from the reversed
segment list: the first (most recent) segment is hard-truncated when it
alone exceeds the budget, otherwise segments accumulate while they fit. -/
def tailKeptRev (maxPlain : Nat) : List Segment → List Segment
  | [] => []
  | seg :: rest =>
    if seg.plain_len ≤ maxPlain then seg :: tailGo maxPlain rest seg.plain_len
    else [⟨seg.kind, py_take_right seg.content maxPlain⟩]

/-- `TelegramStream._tail_segments`: longest fitting suffix of the segment
list; a single oversized segment is hard-truncated to its final
`max_plain` characters; a marker is prepended when segments were dropped. -/
def tail_segments (segs : List Segment) (maxPlain : Nat) : List Segment :=
  if (tailKeptRev maxPlain segs.reverse).reverse.length < segs.length then
    hiddenMarker :: (tailKeptRev maxPlain segs.reverse).reverse
  else (tailKeptRev maxPlain segs.reverse).reverse

/-! ## `TelegramStream._render_html` (vibes.py line 1340) -/

def MAX_TELEGRAM_CHARS : Nat := 4096

/-- The `wrap_log_in_pre` branch of `_render_html`: the joined plain log,
stripped of outer newlines, inside a single `pre`/`code` block. -/
def wrapLogHtml (tailSegs : List Segment) : String :=
  if py_strip_char (py_join "" (tailSegs.map (·.content))) '\n' ≠ "" then
    "<pre><code>"
      ++ html_escape (py_strip_char (py_join "" (tailSegs.map (·.content))) '\n')
      ++ "</code></pre>"
  else "<pre><code></code></pre>"

/-- The plain branch of `_render_html`: per-segment HTML rendering,
stripped of outer whitespace. -/
def plainLogHtml (tailSegs : List Segment) : String :=
  py_strip (py_join "" (tailSegs.map Segment.render_html))

/-- One pass of the render body for a fixed log budget: build the log HTML
from the tail segments and join header/log/footer. -/
def renderOnce (headerS footerS : String) (wrap : Bool) (segs : List Segment)
    (budget : Nat) : String :=
  py_join "\n\n"
    (([headerS,
       if wrap then wrapLogHtml (tail_segments segs budget)
       else plainLogHtml (tail_segments segs budget),
       footerS]).filter (· ≠ ""))

/-- The budget-shrinking step `max(80, int(max_plain_log * 0.75))`. -/
def shrinkBudget (b : Nat) : Nat := max 80 (b * 3 / 4)

/-- The retry loop of `_render_html`: up to `n` render attempts, each
either fitting inside `MAX_TELEGRAM_CHARS` or shrinking the budget; the
final attempt's result is returned even when it does not fit. -/
def renderLoop (headerS footerS : String) (wrap : Bool) (segs : List Segment) :
    Nat → Nat → String
  | 0, b => renderOnce headerS footerS wrap segs b
  | n + 1, b =>
    let t := renderOnce headerS footerS wrap segs b
    if t.length ≤ MAX_TELEGRAM_CHARS then t
    else if n = 0 then t
    else renderLoop headerS footerS wrap segs n (shrinkBudget b)

/-- `TelegramStream._render_html` as a function of the stream state
(header/footer HTML, their recorded plain lengths, the wrap flag and the
log segments). -/
def render_html (headerHtml : String) (headerPlainLen : Nat)
    (footerHtml : String) (footerPlainLen : Nat) (wrap : Bool)
    (segs : List Segment) : String :=
  let headerS := py_strip headerHtml
  let footerS := py_strip footerHtml
  let maxPlainTotal : Nat :=
    if MAX_TELEGRAM_CHARS - 250 < 500 then MAX_TELEGRAM_CHARS else MAX_TELEGRAM_CHARS - 250
  let rawLog : Int := (maxPlainTotal : Int) - headerPlainLen - footerPlainLen - 50
  let maxPlainLog : Nat := if rawLog < 300 then 300 else rawLog.toNat
  renderLoop headerS footerS wrap segs 8 maxPlainLog

/-! ## Plain-length accounting for segment lists -/

/-- Total plain length of a segment list (the budget measure used by
`_tail_segments`). -/
def sumPlain (segs : List Segment) : Nat := (segs.map Segment.plain_len).sum

theorem sumPlain_nil : sumPlain [] = 0 := rfl

theorem sumPlain_cons (seg : Segment) (l : List Segment) :
    sumPlain (seg :: l) = seg.plain_len + sumPlain l := by
  simp [sumPlain]

theorem sumPlain_reverse (l : List Segment) : sumPlain l.reverse = sumPlain l := by
  simp [sumPlain, List.sum_reverse]

theorem tailGo_sum (b : Nat) (l : List Segment) :
    ∀ total : Nat, total ≤ b → total + sumPlain (tailGo b l total) ≤ b := by
  induction l with
  | nil => intro total h; simpa [tailGo] using h
  | cons seg rest ih =>
    intro total h
    unfold tailGo
    split
    case isTrue hfit =>
      have := ih (total + seg.plain_len) hfit
      rw [sumPlain_cons]
      omega
    case isFalse hfit => simpa [sumPlain] using h

theorem py_take_right_length_le (s : String) (k : Nat) (hk : 1 ≤ k) :
    (py_take_right s k).length ≤ k := by
  unfold py_take_right
  split
  · omega
  · show (s.data.drop (s.data.length - k)).length ≤ k
    rw [List.length_drop]
    omega

theorem hiddenMarker_plain_len : hiddenMarker.plain_len = 26 := by decide

theorem tailKeptRev_sum (b : Nat) (hb : 1 ≤ b) (l : List Segment) :
    sumPlain (tailKeptRev b l) ≤ b := by
  cases l with
  | nil => simp [tailKeptRev, sumPlain]
  | cons seg rest =>
    by_cases hfit : seg.plain_len ≤ b
    · have := tailGo_sum b rest seg.plain_len hfit
      rw [tailKeptRev, if_pos hfit, sumPlain_cons]
      omega
    · have := py_take_right_length_le seg.content b hb
      rw [tailKeptRev, if_neg hfit]
      simpa [sumPlain, Segment.plain_len] using this

theorem tail_segments_sum (segs : List Segment) (b : Nat) (hb : 1 ≤ b) :
    sumPlain (tail_segments segs b) ≤ b + 26 := by
  have hkept : sumPlain (tailKeptRev b segs.reverse).reverse ≤ b := by
    rw [sumPlain_reverse]
    exact tailKeptRev_sum b hb segs.reverse
  unfold tail_segments
  split
  · rw [sumPlain_cons, hiddenMarker_plain_len]
    omega
  · omega

/-- The greedy scan keeps a prefix of the list it walks. -/
theorem tailGo_splits (b : Nat) (l : List Segment) :
    ∀ total : Nat, ∃ rest, l = tailGo b l total ++ rest := by
  induction l with
  | nil => intro total; exact ⟨[], rfl⟩
  | cons seg tl ih =>
    intro total
    unfold tailGo
    split
    · obtain ⟨rest, hrest⟩ := ih (total + seg.plain_len)
      exact ⟨rest, by rw [List.cons_append, ← hrest]⟩
    · exact ⟨seg :: tl, rfl⟩

/-- Full case analysis of `_tail_segments`: the view is either the whole
log, a marker plus an intact suffix, or a hard-truncated oversized final
segment (with a marker exactly when other segments were also dropped). -/
theorem tail_segments_cases (segs : List Segment) (b : Nat) :
    tail_segments segs b = segs ∨
    (∃ dropped kept, dropped ≠ [] ∧ segs = dropped ++ kept ∧
      tail_segments segs b = hiddenMarker :: kept) ∨
    (∃ pre seg, segs = pre ++ [seg] ∧ b < seg.plain_len ∧
      (∃ cut, seg.content.data = cut ++ (py_take_right seg.content b).data) ∧
      tail_segments segs b =
        (if pre = [] then ([⟨seg.kind, py_take_right seg.content b⟩] : List Segment)
         else [hiddenMarker, ⟨seg.kind, py_take_right seg.content b⟩])) := by
  cases hrev : segs.reverse with
  | nil =>
    have hnil : segs = [] := by simpa using congrArg List.reverse hrev
    subst hnil
    left
    rfl
  | cons seg rest =>
    have hsegs : segs = rest.reverse ++ [seg] := by
      have h := congrArg List.reverse hrev
      simpa using h
    by_cases hfit : seg.plain_len ≤ b
    · obtain ⟨r2, hr2⟩ := tailGo_splits b rest seg.plain_len
      have hkr : tailKeptRev b segs.reverse = seg :: tailGo b rest seg.plain_len := by
        rw [hrev]
        simp [tailKeptRev, hfit]
      have hkept : (tailKeptRev b segs.reverse).reverse
          = (tailGo b rest seg.plain_len).reverse ++ [seg] := by
        rw [hkr]
        simp
      have hsplit : segs = r2.reverse ++ ((tailGo b rest seg.plain_len).reverse ++ [seg]) := by
        rw [hsegs]
        conv_lhs => rw [hr2]
        simp
      rcases Decidable.em (r2 = []) with hr2nil | hr2ne
      · left
        subst hr2nil
        simp only [List.reverse_nil, List.nil_append] at hsplit
        unfold tail_segments
        rw [hkept, ← hsplit]
        simp
      · right; left
        refine ⟨r2.reverse, (tailGo b rest seg.plain_len).reverse ++ [seg], ?_, hsplit, ?_⟩
        · simpa using hr2ne
        · have hlen : ((tailKeptRev b segs.reverse).reverse).length < segs.length := by
            rw [hkept, hsplit]
            have : 0 < r2.length := List.length_pos.mpr hr2ne
            simp
            omega
          unfold tail_segments
          rw [if_pos hlen, hkept]
    · right; right
      refine ⟨rest.reverse, seg, hsegs, by omega, ?_, ?_⟩
      · unfold py_take_right
        split
        · exact ⟨[], rfl⟩
        · exact ⟨seg.content.data.take (seg.content.data.length - b),
            (List.take_append_drop (seg.content.data.length - b) seg.content.data).symm⟩
      · have hkr : tailKeptRev b segs.reverse
            = [⟨seg.kind, py_take_right seg.content b⟩] := by
          rw [hrev]
          simp [tailKeptRev, hfit]
        rcases Decidable.em (rest.reverse = ([] : List Segment)) with hnil | hne2
        · have hone : segs = [seg] := by rw [hsegs, hnil]; rfl
          have hlen : ¬ ((tailKeptRev b segs.reverse).reverse.length < segs.length) := by
            rw [hkr, hone]
            simp
          unfold tail_segments
          rw [if_neg hlen, hkr]
          simp [hnil]
        · have hlen : ((tailKeptRev b segs.reverse).reverse.length < segs.length) := by
            rw [hkr, hsegs]
            have hpos : 0 < rest.length := by
              have := List.length_pos.mpr hne2
              simpa using this
            simp
            omega
          unfold tail_segments
          rw [if_pos hlen, hkr]
          simp [hne2]


/-! ## Length bounds for the render pipeline -/

theorem escChar_length_le (c : Char) : (escChar c).length ≤ 6 := by
  unfold escChar
  split
  · decide
  split
  · decide
  split
  · decide
  split
  · decide
  split
  · decide
  · simp

theorem flatMap_escChar_length_le (l : List Char) :
    (l.flatMap escChar).length ≤ 6 * l.length := by
  induction l with
  | nil => simp
  | cons c rest ih =>
    rw [List.flatMap_cons, List.length_append]
    have := escChar_length_le c
    simp only [List.length_cons]
    omega

theorem html_escape_length_le (s : String) :
    (html_escape s).length ≤ 6 * s.length := by
  show (s.data.flatMap escChar).length ≤ 6 * s.data.length
  exact flatMap_escChar_length_le s.data

theorem py_strip_char_length_le (s : String) (c : Char) :
    (py_strip_char s c).length ≤ s.length := by
  show (((s.data.dropWhile (· = c)).reverse.dropWhile (· = c)).reverse).length ≤ s.data.length
  rw [List.length_reverse]
  calc ((s.data.dropWhile (· = c)).reverse.dropWhile (· = c)).length
      ≤ (s.data.dropWhile (· = c)).reverse.length :=
        ((s.data.dropWhile (· = c)).reverse.dropWhile_sublist (· = c)).length_le
    _ = (s.data.dropWhile (· = c)).length := List.length_reverse _
    _ ≤ s.data.length := (s.data.dropWhile_sublist (· = c)).length_le

theorem py_join_empty_sep_length (parts : List String) :
    (py_join "" parts).length = (parts.map String.length).sum := by
  induction parts with
  | nil => rfl
  | cons x rest ih =>
    cases rest with
    | nil => simp [py_join]
    | cons y tl =>
      rw [py_join]
      have h0 : ("" : String).length = 0 := rfl
      simp only [String.length_append, h0, ih, List.map_cons, List.sum_cons] at *
      omega

theorem py_join_contents_eq_sumPlain (segs : List Segment) :
    (py_join "" (segs.map (·.content))).length = sumPlain segs := by
  rw [py_join_empty_sep_length, sumPlain, List.map_map]
  rfl

theorem wrapLogHtml_length_le (ts : List Segment) :
    (wrapLogHtml ts).length ≤ 24 + 6 * sumPlain ts := by
  unfold wrapLogHtml
  have hplain : (py_strip_char (py_join "" (ts.map (·.content))) '\n').length
      ≤ sumPlain ts := by
    calc (py_strip_char (py_join "" (ts.map (·.content))) '\n').length
        ≤ (py_join "" (ts.map (·.content))).length := py_strip_char_length_le _ _
      _ = sumPlain ts := py_join_contents_eq_sumPlain ts
  have h1 : ("<pre><code>" : String).length = 11 := rfl
  have h2 : ("</code></pre>" : String).length = 13 := rfl
  split
  · have hesc := html_escape_length_le (py_strip_char (py_join "" (ts.map (·.content))) '\n')
    rw [String.length_append, String.length_append, h1, h2]
    omega
  · have h3 : ("<pre><code></code></pre>" : String).length = 24 := rfl
    omega

theorem wrapLogHtml_ne_empty (ts : List Segment) : wrapLogHtml ts ≠ "" := by
  unfold wrapLogHtml
  have h1 : ("<pre><code>" : String).length = 11 := rfl
  have h2 : ("</code></pre>" : String).length = 13 := rfl
  split
  · intro h
    have hl := congrArg String.length h
    rw [String.length_append, String.length_append, h1, h2] at hl
    simp at hl
  · intro h
    have hl := congrArg String.length h
    have h3 : ("<pre><code></code></pre>" : String).length = 24 := rfl
    rw [h3] at hl
    simp at hl

theorem py_join_filter_empty_sides (l : String) (h : l ≠ "") :
    py_join "\n\n" ((["", l, ""] : List String).filter (· ≠ "")) = l := by
  have hfilter : ((["", l, ""] : List String).filter (· ≠ "")) = [l] := by
    simp [List.filter, h]
  rw [hfilter, py_join]

/-- One wrap-mode render pass with empty header and footer stays within
an affine bound in the log budget. -/
theorem renderOnce_wrap_le (segs : List Segment) (b : Nat) (hb : 1 ≤ b) :
    (renderOnce "" "" true segs b).length ≤ 6 * b + 180 := by
  show (py_join "\n\n" ((["", wrapLogHtml (tail_segments segs b), ""]).filter (· ≠ ""))).length
      ≤ 6 * b + 180
  rw [py_join_filter_empty_sides _ (wrapLogHtml_ne_empty _)]
  have hsum := tail_segments_sum segs b hb
  have := wrapLogHtml_length_le (tail_segments segs b)
  omega

/-- Iterated budget shrinking, matching the successive loop iterations of
`_render_html`. -/
def shrinkIterate : Nat → Nat → Nat
  | 0, b => b
  | n + 1, b => shrinkIterate n (shrinkBudget b)

theorem shrinkBudget_mono {b b' : Nat} (h : b ≤ b') : shrinkBudget b ≤ shrinkBudget b' := by
  unfold shrinkBudget
  exact max_le_max le_rfl (Nat.div_le_div_right (Nat.mul_le_mul_right _ h))

theorem shrinkIterate_mono (n : Nat) : ∀ {b b' : Nat}, b ≤ b' →
    shrinkIterate n b ≤ shrinkIterate n b' := by
  induction n with
  | zero => intro b b' h; exact h
  | succ n ih => intro b b' h; exact ih (shrinkBudget_mono h)

theorem shrinkIterate_succ_ge (n : Nat) : ∀ b : Nat, 80 ≤ shrinkIterate (n + 1) b := by
  induction n with
  | zero => intro b; exact le_max_left 80 _
  | succ n ih => intro b; exact ih (shrinkBudget b)

/-- If the render pass at the final shrunk budget fits the Telegram
limit, then the whole retry loop returns a string within the limit. -/
theorem renderLoop_le (h f : String) (w : Bool) (segs : List Segment) (n : Nat) :
    ∀ b : Nat,
      (renderOnce h f w segs (shrinkIterate n b)).length ≤ MAX_TELEGRAM_CHARS →
      (renderLoop h f w segs (n + 1) b).length ≤ MAX_TELEGRAM_CHARS := by
  induction n with
  | zero =>
    intro b hfit
    rw [renderLoop]
    split
    · assumption
    · simpa using hfit
  | succ n ih =>
    intro b hfit
    rw [renderLoop]
    split
    · assumption
    · rw [if_neg (Nat.succ_ne_zero n)]
      exact ih (shrinkBudget b) hfit

/-! ## Exact behaviour of the render loop on specific states -/

theorem tailGo_all (b : Nat) (l : List Segment) :
    ∀ total : Nat, total + sumPlain l ≤ b → tailGo b l total = l := by
  induction l with
  | nil => intro total _; rfl
  | cons seg rest ih =>
    intro total h
    rw [sumPlain_cons] at h
    rw [tailGo, if_pos (by omega), ih (total + seg.plain_len) (by omega)]

/-- When the whole log fits the budget, `_tail_segments` keeps it intact. -/
theorem tail_segments_all (segs : List Segment) (b : Nat) (h : sumPlain segs ≤ b) :
    tail_segments segs b = segs := by
  have hkr : tailKeptRev b segs.reverse = segs.reverse := by
    cases hrev : segs.reverse with
    | nil => rfl
    | cons seg rest =>
      have hsum : sumPlain (seg :: rest) ≤ b := by
        rw [← hrev, sumPlain_reverse]
        exact h
      rw [sumPlain_cons] at hsum
      rw [tailKeptRev, if_pos (by omega), tailGo_all b rest seg.plain_len (by omega)]
  unfold tail_segments
  rw [hkr, List.reverse_reverse]
  simp

/-- When every render attempt of the loop produces the same string, the
loop returns that string. -/
theorem renderLoop_eq_of_const (hS fS : String) (w : Bool) (segs : List Segment)
    (S : String) (n : Nat) :
    ∀ b : Nat, (∀ j, j ≤ n → renderOnce hS fS w segs (shrinkIterate j b) = S) →
    renderLoop hS fS w segs (n + 1) b = S := by
  induction n with
  | zero =>
    intro b hall
    have h0 := hall 0 (Nat.le_refl 0)
    rw [renderLoop]
    split
    · exact h0
    · simpa using h0
  | succ n ih =>
    intro b hall
    have h0 := hall 0 (Nat.zero_le _)
    rw [renderLoop]
    split
    · exact h0
    · rw [if_neg (Nat.succ_ne_zero n)]
      apply ih
      intro j hj
      exact hall (j + 1) (by omega)

/-- Dropping a leading run leaves the list unchanged when no element
satisfies the predicate. -/
theorem dropWhile_eq_self_of_all_neg (p : Char → Bool) (l : List Char)
    (h : l.all (fun c => !p c) = true) : l.dropWhile p = l := by
  cases l with
  | nil => rfl
  | cons c rest =>
    rw [List.all_cons, Bool.and_eq_true] at h
    rw [List.dropWhile_cons]
    have : p c = false := by
      rcases h with ⟨h1, _⟩
      simpa using h1
    simp [this]

/-- `str.strip()` is the identity on a string without whitespace. -/
theorem py_strip_eq_self_of_no_ws (s : String)
    (h : s.data.all (fun c => !isPySpace c) = true) : py_strip s = s := by
  obtain ⟨l⟩ := s
  show String.mk (((l.dropWhile isPySpace).reverse.dropWhile isPySpace).reverse) = String.mk l
  rw [dropWhile_eq_self_of_all_neg isPySpace l h]
  have hrev : l.reverse.all (fun c => !isPySpace c) = true := by
    rw [List.all_eq_true] at h ⊢
    intro c hc
    exact h c (List.mem_reverse.mp hc)
  rw [dropWhile_eq_self_of_all_neg isPySpace l.reverse hrev, List.reverse_reverse]

/-! ## Claim C1 -/

/-- Claim C1 (amended): with an empty header and footer and the log
rendered inside a single `pre` block (`wrap_log_in_pre`), one pass of
`_render_html` always produces at most `MAX_TELEGRAM_CHARS` characters,
for every recorded header/footer plain length and every segment list. -/
theorem render_html_within_limit_wrap_empty_header_footer
    (hp fp : Nat) (segs : List Segment) :
    (render_html "" hp "" fp true segs).length ≤ MAX_TELEGRAM_CHARS := by
  unfold render_html
  have hmpt : (if MAX_TELEGRAM_CHARS - 250 < 500 then MAX_TELEGRAM_CHARS
      else MAX_TELEGRAM_CHARS - 250) = 3846 := by decide
  rw [hmpt]
  set rawLog : Int := (3846 : Int) - hp - fp - 50 with hraw
  set b1 : Nat := if rawLog < 300 then 300 else rawLog.toNat with hb1
  have hb1_le : b1 ≤ 3796 := by
    rw [hb1]
    split
    · omega
    · rw [hraw]; omega
  have hb1_ge : 1 ≤ b1 := by
    rw [hb1]
    split
    · omega
    · rw [hraw]; omega
  have hstrip : py_strip "" = "" := rfl
  rw [hstrip]
  show (renderLoop "" "" true segs (7 + 1) b1).length ≤ MAX_TELEGRAM_CHARS
  apply renderLoop_le
  have hle : shrinkIterate 7 b1 ≤ 506 := by
    calc shrinkIterate 7 b1 ≤ shrinkIterate 7 3796 := shrinkIterate_mono 7 hb1_le
      _ = 506 := by decide
  have hge : 1 ≤ shrinkIterate 7 b1 := by
    have h80 : 80 ≤ shrinkIterate 7 b1 := shrinkIterate_succ_ge 6 b1
    omega
  calc (renderOnce "" "" true segs (shrinkIterate 7 b1)).length
      ≤ 6 * shrinkIterate 7 b1 + 180 := renderOnce_wrap_le segs _ hge
    _ ≤ 6 * 506 + 180 := by omega
    _ ≤ MAX_TELEGRAM_CHARS := by decide

/-- A log of 160 one-character code segments: each renders to 30 HTML
characters, so every budget the shrink loop tries keeps all of them and
the rendered view is 4800 characters long. -/
def cexSegments : List Segment := List.replicate 160 ⟨"code", "\""⟩

/-- The fixed string every render attempt produces on `cexSegments`. -/
def cexRendered : String := py_join "" (cexSegments.map Segment.render_html)

theorem cexRendered_length : cexRendered.length = 4800 := by
  unfold cexRendered cexSegments
  rw [py_join_empty_sep_length, List.map_replicate, List.map_replicate]
  have h30 : (Segment.render_html ⟨"code", "\""⟩).length = 30 := by decide
  rw [h30, List.sum_replicate, smul_eq_mul]

theorem cexRendered_ne_empty : cexRendered ≠ "" := by
  intro h
  have := congrArg String.length h
  rw [cexRendered_length] at this
  simp at this

theorem data_append (a b : String) : (a ++ b).data = a.data ++ b.data := by
  obtain ⟨la⟩ := a
  obtain ⟨lb⟩ := b
  rfl

theorem py_join_all_of_all (pred : Char → Bool) (parts : List String)
    (h : ∀ x ∈ parts, x.data.all pred = true) :
    (py_join "" parts).data.all pred = true := by
  induction parts with
  | nil => rfl
  | cons x rest ih =>
    cases rest with
    | nil => exact h x (by simp)
    | cons y tl =>
      rw [py_join, data_append, data_append]
      rw [List.all_append, List.all_append]
      have hx := h x (by simp)
      have hrest : (py_join "" (y :: tl)).data.all pred = true := by
        apply ih
        intro z hz
        exact h z (by simp [hz])
      simp [hx, hrest]

theorem cexRendered_no_ws : cexRendered.data.all (fun c => !isPySpace c) = true := by
  unfold cexRendered cexSegments
  rw [List.map_replicate]
  apply py_join_all_of_all
  intro x hx
  rw [List.eq_of_mem_replicate hx]
  decide

theorem cexRendered_strip : py_strip cexRendered = cexRendered :=
  py_strip_eq_self_of_no_ws cexRendered cexRendered_no_ws

theorem sumPlain_cexSegments : sumPlain cexSegments = 160 := by
  unfold sumPlain cexSegments
  rw [List.map_replicate, List.sum_replicate, smul_eq_mul]
  decide

theorem renderOnce_cex (b : Nat) (hb : 160 ≤ b) :
    renderOnce "" "" false cexSegments b = cexRendered := by
  show py_join "\n\n" ((["", plainLogHtml (tail_segments cexSegments b), ""]).filter (· ≠ ""))
      = cexRendered
  rw [tail_segments_all cexSegments b (by rw [sumPlain_cexSegments]; omega)]
  show py_join "\n\n" ((["", py_strip cexRendered, ""]).filter (· ≠ "")) = cexRendered
  rw [cexRendered_strip]
  exact py_join_filter_empty_sides cexRendered cexRendered_ne_empty

/-- Claim C1 (counterexample): a stream state with an empty header and
footer whose log holds 160 one-character code segments renders, in one
pass of `_render_html`, to 4800 characters — beyond the 4096-character
hard limit, refuting the claim as stated. -/
theorem render_html_exceeds_limit_cex :
    MAX_TELEGRAM_CHARS < (render_html "" 0 "" 0 false cexSegments).length := by
  have hrender : render_html "" 0 "" 0 false cexSegments = cexRendered := by
    show renderLoop "" "" false cexSegments (7 + 1) 3796 = cexRendered
    apply renderLoop_eq_of_const
    intro j hj
    apply renderOnce_cex
    have hall : ∀ j, j ≤ 7 → 160 ≤ shrinkIterate j 3796 := by decide
    exact hall j hj
  rw [hrender, cexRendered_length]
  decide

/-! ## Claim C3 -/

/-- Claim C3: for every sequence of `add_text`/`add_code` calls and every
log budget, the tail view either shows the whole appended log in order,
or a "previous output hidden" marker followed by an intact suffix of the
appended segments, or (the declared hard-truncation rule) a suffix of a
single oversized final segment — so call order is preserved and every
appended character is either rendered, behind the marker, or cut by the
declared truncation rule. -/
theorem log_view_order_and_accounting (calls : List StreamCall) (b : Nat) :
    tail_segments (applyCalls calls) b = applyCalls calls ∨
    (∃ dropped kept, dropped ≠ [] ∧ applyCalls calls = dropped ++ kept ∧
      tail_segments (applyCalls calls) b = hiddenMarker :: kept) ∨
    (∃ pre seg, applyCalls calls = pre ++ [seg] ∧ b < seg.plain_len ∧
      (∃ cut, seg.content.data = cut ++ (py_take_right seg.content b).data) ∧
      tail_segments (applyCalls calls) b =
        (if pre = [] then ([⟨seg.kind, py_take_right seg.content b⟩] : List Segment)
         else [hiddenMarker, ⟨seg.kind, py_take_right seg.content b⟩])) :=
  tail_segments_cases (applyCalls calls) b

/-! ## Session / run state (vibes.py lines 1489-1529) -/

/-- The slice of `TelegramStream` state that the attachment multiplexer
reads and writes: the targeted surface and the `_resume_event` flag
(cleared by `pause()`). -/
structure StreamState where
  chat_id : Int
  message_id : Int
  resume_event_set : Bool
deriving DecidableEq, Repr

/-- The slice of `SessionRun` relevant to attachment and stopping. -/
structure SessionRunState where
  stream : StreamState
  paused : Bool
  stop_requested : Bool
  returncode : Option Int
deriving DecidableEq, Repr

/-- The slice of `SessionRecord` relevant to attachment and stopping. -/
structure SessionRecState where
  status : String
  run : Option SessionRunState
deriving DecidableEq, Repr

/-- Python dict assignment `d[k] = v`: replace the first binding in
place or append a new one. -/
def dictSet {α β : Type} [DecidableEq α] : List (α × β) → α → β → List (α × β)
  | [], k, v => [(k, v)]
  | (k', v') :: rest, k, v =>
    if k' = k then (k, v) :: rest else (k', v') :: dictSet rest k v

/-! ## Attachment multiplexer (vibes.py lines 1536-1591) -/

/-- `SessionManager.register_run_message`. -/
def register_run_message (table : List ((Int × Int) × String))
    (chat_id message_id : Int) (session_name : String) : List ((Int × Int) × String) :=
  if chat_id ≠ 0 ∧ message_id ≠ 0 ∧ session_name ≠ "" then
    dictSet table (chat_id, message_id) session_name
  else table

/-- `SessionManager.resolve_session_for_run_message` (the registration
table lookup). -/
def resolve_session_for_run_message (table : List ((Int × Int) × String))
    (chat_id message_id : Int) : Option String :=
  List.lookup (chat_id, message_id) table

/-- `SessionManager.resolve_attached_running_session_for_message`: scan
the session registry in order for the first running, unpaused session
whose stream targets the queried surface. -/
def resolve_attached_running_session_for_message :
    List (String × SessionRecState) → Int → Int → Option String
  | [], _, _ => none
  | (name, rec) :: rest, chat_id, message_id =>
    match rec.run with
    | none => resolve_attached_running_session_for_message rest chat_id message_id
    | some run =>
      if rec.status = "running" then
        if run.stream.chat_id = chat_id then
          if run.stream.message_id = message_id then
            if run.paused then
              resolve_attached_running_session_for_message rest chat_id message_id
            else some name
          else resolve_attached_running_session_for_message rest chat_id message_id
        else resolve_attached_running_session_for_message rest chat_id message_id
      else resolve_attached_running_session_for_message rest chat_id message_id

/-- The loop-skip test `if except_session and name == except_session`
(Python truthiness: `None` and the empty string never match). -/
def exceptMatches (except_session : Option String) (name : String) : Bool :=
  match except_session with
  | some e => if e = "" then false else if name = e then true else false
  | none => false

/-- The per-record effect of one loop iteration of
`SessionManager.pause_other_attached_runs`. -/
def pauseStep (chat_id message_id : Int) (except_session : Option String)
    (name : String) (rec : SessionRecState) : SessionRecState :=
  if exceptMatches except_session name then rec
  else
    match rec.run with
    | none => rec
    | some run =>
      if rec.status = "running" then
        if run.stream.chat_id = chat_id then
          if run.stream.message_id = message_id then
            if run.paused then rec
            else { rec with run := some ({ run with
                      paused := true
                      stream := { run.stream with resume_event_set := false } }) }
          else rec
        else rec
      else rec

/-- `SessionManager.pause_other_attached_runs`: pause every other
running, unpaused session whose stream targets the given surface. -/
def pause_other_attached_runs (sessions : List (String × SessionRecState))
    (chat_id message_id : Int) (except_session : Option String) :
    List (String × SessionRecState) :=
  sessions.map (fun p => (p.1, pauseStep chat_id message_id except_session p.1 p.2))

/-! ## `SessionManager.stop` (vibes.py lines 2164-2201) -/

/-- A termination-signal delivery attempted by `stop`. -/
inductive SignalAction where
  | term_group
  | term_single
  | kill_group
  | kill_single
deriving DecidableEq, Repr

/-- The observable outcome of `SessionManager.stop`: its return value,
the signal deliveries it attempted, and the updated registry. -/
structure StopOutcome where
  ok : Bool
  signals : List SignalAction
  sessions : List (String × SessionRecState)
deriving DecidableEq, Repr

/-- `SessionManager.stop`.  OS behaviour that the code observes through
exceptions and the wait timeout is passed in as oracles: `posix` for
`os.name`, `lookupError` for `ProcessLookupError` from the first signal,
`otherError` for any other exception there, `waitTimedOut` for the
5-second grace period expiring. -/
def stop (sessions : List (String × SessionRecState)) (name : String)
    (posix lookupError otherError waitTimedOut : Bool) : StopOutcome :=
  match List.lookup name sessions with
  | none => ⟨false, [], sessions⟩
  | some rec =>
    match rec.run with
    | none => ⟨false, [], sessions⟩
    | some run =>
      let sessions' := dictSet sessions name
        { rec with run := some { run with stop_requested := true } }
      match run.returncode with
      | some _ => ⟨true, [], sessions'⟩
      | none =>
        let attempt1 : List SignalAction :=
          if posix then [.term_group] else [.term_single]
        if lookupError then ⟨true, attempt1, sessions'⟩
        else
          let attempt2 :=
            if otherError then attempt1 ++ [.term_single] else attempt1
          if waitTimedOut then
            ⟨true, attempt2 ++ (if posix then [.kill_group] else [.kill_single]), sessions'⟩
          else ⟨true, attempt2, sessions'⟩

/-! ## Engine argument vectors (vibes.py lines 2203-2257) -/

/-- The `SessionRecord` fields consumed by the command builders. -/
structure CmdRec where
  path : String
  model : String
  reasoning_effort : String
  thread_id : Option String
deriving DecidableEq, Repr

/-- `prompt.lstrip().startswith("-")`, the end-of-options test. -/
def lstrip_startswith_dash (prompt : String) : Bool :=
  py_startswith (py_lstrip prompt) "-"

/-- The truthy `run_mode == "continue" and rec.thread_id` test: the
recorded token when continuing, `none` otherwise. -/
def continueToken (runMode : String) (threadId : Option String) : Option String :=
  if runMode = "continue" then
    match threadId with
    | some t => if t = "" then none else some t
    | none => none
  else none

/-- The `base` vector of `_build_codex_cmd` before the resume/prompt
suffix is appended. -/
def codex_base (sandboxMode approvalPolicy : String) (gitDir : Option String)
    (rec : CmdRec) : List String :=
  ["codex", "exec", "--json", "--sandbox", sandboxMode, "-c",
    "approval_policy=" ++ approvalPolicy]
  ++ (match gitDir with
    | none => ["--skip-git-repo-check"]
    | some g => ["--add-dir", g])
  ++ ["-C", rec.path] ++ ["--model", rec.model]
  ++ ["-c", "model_reasoning_effort=" ++ rec.reasoning_effort]

/-- `SessionManager._build_codex_cmd`.  Environment- and
filesystem-derived inputs (`_codex_sandbox_mode`, `_codex_approval_policy`,
`_detect_git_dir`) are passed as parameters. -/
def build_codex_cmd (sandboxMode approvalPolicy : String) (gitDir : Option String)
    (rec : CmdRec) (prompt : String) (runMode : String) : List String :=
  let needsEnd := lstrip_startswith_dash prompt
  match continueToken runMode rec.thread_id with
  | some t => codex_base sandboxMode approvalPolicy gitDir rec
      ++ ["resume", t] ++ (if needsEnd then ["--"] else []) ++ [prompt]
  | none => codex_base sandboxMode approvalPolicy gitDir rec
      ++ (if needsEnd then ["--"] else []) ++ [prompt]

/-- The `base` vector of `_build_claude_cmd` before the resume/prompt
suffix is appended. -/
def claude_base (permissionMode claudeModelDefault : String) (rec : CmdRec) : List String :=
  ["claude", "-p", "--verbose", "--output-format", "stream-json",
    "--include-partial-messages", "--permission-mode", permissionMode, "--model",
    if rec.model = "" then claudeModelDefault else rec.model]

/-- `SessionManager._build_claude_cmd`.  `_claude_permission_mode` and
`_claude_model_default` are passed as parameters. -/
def build_claude_cmd (permissionMode claudeModelDefault : String)
    (rec : CmdRec) (prompt : String) (runMode : String) : List String :=
  let base2 := match continueToken runMode rec.thread_id with
    | some t => claude_base permissionMode claudeModelDefault rec ++ ["-r", t]
    | none => claude_base permissionMode claudeModelDefault rec
  let needsEnd := lstrip_startswith_dash prompt
  base2 ++ (if needsEnd then ["--"] else []) ++ [prompt]

/-! ## Claim C4 -/

theorem resolve_cons_eq_some (n : String) (r : SessionRecState) (ru : SessionRunState)
    (rest : List (String × SessionRecState)) (chatId messageId : Int)
    (hr : r.run = some ru) (h1 : r.status = "running")
    (h2 : ru.stream.chat_id = chatId) (h3 : ru.stream.message_id = messageId)
    (h4 : ru.paused = false) :
    resolve_attached_running_session_for_message ((n, r) :: rest) chatId messageId
      = some n := by
  simp [resolve_attached_running_session_for_message, hr, h1, h2, h3, h4]

theorem resolve_cons_eq_rest (n : String) (r : SessionRecState)
    (rest : List (String × SessionRecState)) (chatId messageId : Int)
    (hskip : ∀ ru, r.run = some ru → r.status = "running" → ru.stream.chat_id = chatId →
      ru.stream.message_id = messageId → ru.paused = true) :
    resolve_attached_running_session_for_message ((n, r) :: rest) chatId messageId
      = resolve_attached_running_session_for_message rest chatId messageId := by
  cases hr : r.run with
  | none => simp [resolve_attached_running_session_for_message, hr]
  | some ru =>
    by_cases h1 : r.status = "running"
    · by_cases h2 : ru.stream.chat_id = chatId
      · by_cases h3 : ru.stream.message_id = messageId
        · have h4 := hskip ru hr h1 h2 h3
          simp [resolve_attached_running_session_for_message, hr, h1, h2, h3, h4]
        · simp [resolve_attached_running_session_for_message, hr, h1, h2, h3]
      · simp [resolve_attached_running_session_for_message, hr, h1, h2]
    · simp [resolve_attached_running_session_for_message, hr, h1]

theorem resolve_finds_unique_live (chatId messageId : Int) (A : String)
    (recA : SessionRecState) (runA : SessionRunState) :
    ∀ sessions : List (String × SessionRecState),
      (A, recA) ∈ sessions →
      recA.run = some runA → recA.status = "running" →
      runA.stream.chat_id = chatId → runA.stream.message_id = messageId →
      runA.paused = false →
      (∀ name rec run, (name, rec) ∈ sessions → rec.run = some run →
        rec.status = "running" → run.stream.chat_id = chatId →
        run.stream.message_id = messageId → run.paused = false → name = A) →
      resolve_attached_running_session_for_message sessions chatId messageId = some A := by
  intro sessions
  induction sessions with
  | nil => intro h; simp at h
  | cons p rest ih =>
    intro hmem hrun hstat hchat hmsg hpaused huniq
    obtain ⟨n, r⟩ := p
    by_cases hhead : ∃ ru, r.run = some ru ∧ r.status = "running" ∧
        ru.stream.chat_id = chatId ∧ ru.stream.message_id = messageId ∧ ru.paused = false
    · obtain ⟨ru, hru, h1, h2, h3, h4⟩ := hhead
      have hnA : n = A := huniq n r ru (List.mem_cons_self _ _) hru h1 h2 h3 h4
      rw [resolve_cons_eq_some n r ru rest chatId messageId hru h1 h2 h3 h4, hnA]
    · have hne : (A, recA) ≠ (n, r) := by
        intro he
        apply hhead
        obtain ⟨heA, heR⟩ := Prod.mk.injEq .. ▸ he.symm
        exact ⟨runA, by rw [heR]; exact hrun, by rw [heR]; exact hstat, hchat, hmsg, hpaused⟩
      have hmem' : (A, recA) ∈ rest := by
        rcases List.mem_cons.mp hmem with h | h
        · exact absurd h hne
        · exact h
      rw [resolve_cons_eq_rest n r rest chatId messageId]
      · exact ih hmem' hrun hstat hchat hmsg hpaused
          (fun nm rc ru hm => huniq nm rc ru (List.mem_cons_of_mem _ hm))
      · intro ru hru h1 h2 h3
        by_contra hp
        exact hhead ⟨ru, hru, h1, h2, h3, by simpa using hp⟩

/-- Claim C4: when the registration table still names a paused session B
for the surface while a different session A is running, unpaused, and the
unique one whose stream records that surface,
`resolve_attached_running_session_for_message` returns A, not B. -/
theorem resolve_ignores_stale_registration
    (sessions : List (String × SessionRecState)) (table : List ((Int × Int) × String))
    (chatId messageId : Int) (A B : String) (recA recB : SessionRecState)
    (runA runB : SessionRunState)
    (htable : resolve_session_for_run_message table chatId messageId = some B)
    (hBA : B ≠ A)
    (_hmemB : (B, recB) ∈ sessions) (_hBrun : recB.run = some runB)
    (_hBpaused : runB.paused = true)
    (hmemA : (A, recA) ∈ sessions)
    (hArun : recA.run = some runA) (hAstat : recA.status = "running")
    (hAchat : runA.stream.chat_id = chatId) (hAmsg : runA.stream.message_id = messageId)
    (hApaused : runA.paused = false)
    (huniq : ∀ name rec run, (name, rec) ∈ sessions → rec.run = some run →
      rec.status = "running" → run.stream.chat_id = chatId →
      run.stream.message_id = messageId → run.paused = false → name = A) :
    resolve_attached_running_session_for_message sessions chatId messageId = some A ∧
    resolve_attached_running_session_for_message sessions chatId messageId
      ≠ resolve_session_for_run_message table chatId messageId := by
  have hres := resolve_finds_unique_live chatId messageId A recA runA sessions
    hmemA hArun hAstat hAchat hAmsg hApaused huniq
  refine ⟨hres, ?_⟩
  rw [hres, htable]
  intro h
  exact hBA (Option.some.injEq .. ▸ h).symm

/-- Claim C4 witness: session "b" is paused and still registered for the
surface (1, 5); session "a" is running, unpaused and targeting (1, 5);
resolution returns "a". -/
theorem resolve_ignores_stale_registration_witness :
    resolve_attached_running_session_for_message
      [("b", ⟨"running", some ⟨⟨1, 5, false⟩, true, false, none⟩⟩),
       ("a", ⟨"running", some ⟨⟨1, 5, true⟩, false, false, none⟩⟩)] 1 5 = some "a" ∧
    resolve_attached_running_session_for_message
      [("b", ⟨"running", some ⟨⟨1, 5, false⟩, true, false, none⟩⟩),
       ("a", ⟨"running", some ⟨⟨1, 5, true⟩, false, false, none⟩⟩)] 1 5
      ≠ resolve_session_for_run_message [((1, 5), "b")] 1 5 := by
  apply resolve_ignores_stale_registration
    [("b", ⟨"running", some ⟨⟨1, 5, false⟩, true, false, none⟩⟩),
     ("a", ⟨"running", some ⟨⟨1, 5, true⟩, false, false, none⟩⟩)]
    [((1, 5), "b")] 1 5 "a" "b"
    ⟨"running", some ⟨⟨1, 5, true⟩, false, false, none⟩⟩
    ⟨"running", some ⟨⟨1, 5, false⟩, true, false, none⟩⟩
    ⟨⟨1, 5, true⟩, false, false, none⟩
    ⟨⟨1, 5, false⟩, true, false, none⟩
  · rfl
  · decide
  · simp
  · rfl
  · rfl
  · simp
  · rfl
  · rfl
  · rfl
  · rfl
  · rfl
  · intro name rec run hmem h1 h2 h3 h4 h5
    simp at hmem
    rcases hmem with ⟨hn, hr⟩ | ⟨hn, hr⟩
    · subst hr
      simp at h1
      subst h1
      simp at h5
    · exact hn

/-! ## Claim C5 -/

theorem lookup_map_with_key {β γ : Type} (f : String → β → γ)
    (l : List (String × β)) (k : String) :
    List.lookup k (l.map (fun p => (p.1, f p.1 p.2)))
      = (List.lookup k l).map (f k) := by
  induction l with
  | nil => rfl
  | cons p rest ih =>
    obtain ⟨a, b⟩ := p
    by_cases h : k = a
    · subst h
      simp [List.lookup]
    · have hba : (k == a) = false := beq_eq_false_iff_ne.mpr h
      simp [List.lookup, hba, ih]

theorem exceptMatches_self (A : String) (hAne : A ≠ "") :
    exceptMatches (some A) A = true := by
  simp [exceptMatches, hAne]

theorem exceptMatches_other (A name : String) (hname : name ≠ A) :
    exceptMatches (some A) name = false := by
  unfold exceptMatches
  by_cases hA : A = "" <;> simp [hA, hname]

theorem pauseStep_excepted (chatId messageId : Int) (A : String)
    (rec : SessionRecState) (hAne : A ≠ "") :
    pauseStep chatId messageId (some A) A rec = rec := by
  simp [pauseStep, exceptMatches_self A hAne]

theorem pauseStep_pauses (chatId messageId : Int) (A name : String)
    (rec : SessionRecState) (run : SessionRunState)
    (hname : name ≠ A) (hrun : rec.run = some run) (hstat : rec.status = "running")
    (hc : run.stream.chat_id = chatId) (hm : run.stream.message_id = messageId)
    (hp : run.paused = false) :
    pauseStep chatId messageId (some A) name rec
      = { rec with run := some ({ run with
            paused := true
            stream := { run.stream with resume_event_set := false } }) } := by
  simp [pauseStep, exceptMatches_other A name hname, hrun, hstat, hc, hm, hp]

theorem pauseStep_preserves_or_pauses (chatId messageId : Int) (exc : Option String)
    (name : String) (rec : SessionRecState) :
    pauseStep chatId messageId exc name rec = rec ∨
    (∃ run, rec.run = some run ∧ run.paused = false ∧
      pauseStep chatId messageId exc name rec
        = { rec with run := some ({ run with
              paused := true
              stream := { run.stream with resume_event_set := false } }) }) := by
  by_cases he : exceptMatches exc name = true
  · left
    simp [pauseStep, he]
  · have he2 : exceptMatches exc name = false := by simpa using he
    cases hr : rec.run with
    | none =>
      left
      simp [pauseStep, he2, hr]
    | some ru =>
      by_cases s1 : rec.status = "running"
      · by_cases s2 : ru.stream.chat_id = chatId
        · by_cases s3 : ru.stream.message_id = messageId
          · by_cases s4 : ru.paused = true
            · left
              simp [pauseStep, he2, hr, s1, s2, s3, s4]
            · right
              refine ⟨ru, rfl, by simpa using s4, ?_⟩
              simp [pauseStep, he2, hr, s1, s2, s3, s4]
          · left
            simp [pauseStep, he2, hr, s1, s2, s3]
        · left
          simp [pauseStep, he2, hr, s1, s2]
      · left
        simp [pauseStep, he2, hr, s1]

/-- Claim C5: for two running sessions A and B whose streams both target
the surface (chat, message), in any registry order, after
`pause_other_attached_runs` for that surface excepting A: B's run is
paused and its stream's resume event is cleared, A's record is untouched
(so A stays unpaused), and every running session other than A whose
stream targets the surface is paused. -/
theorem pause_other_attached_runs_pauses_rival
    (sessions : List (String × SessionRecState)) (chatId messageId : Int)
    (A B : String) (recA recB : SessionRecState) (runA runB : SessionRunState)
    (hBA : B ≠ A) (hAne : A ≠ "")
    (hA : List.lookup A sessions = some recA) (hB : List.lookup B sessions = some recB)
    (hArun : recA.run = some runA) (_hAstat : recA.status = "running")
    (_hAchat : runA.stream.chat_id = chatId) (_hAmsg : runA.stream.message_id = messageId)
    (hApaused : runA.paused = false)
    (hBrun : recB.run = some runB) (hBstat : recB.status = "running")
    (hBchat : runB.stream.chat_id = chatId) (hBmsg : runB.stream.message_id = messageId)
    (hBpaused : runB.paused = false) :
    List.lookup B (pause_other_attached_runs sessions chatId messageId (some A))
      = some { recB with run := some ({ runB with
          paused := true
          stream := { runB.stream with resume_event_set := false } }) } ∧
    List.lookup A (pause_other_attached_runs sessions chatId messageId (some A))
      = some recA ∧
    recA.run = some runA ∧ runA.paused = false ∧
    (∀ name rec run,
      (name, rec) ∈ pause_other_attached_runs sessions chatId messageId (some A) →
      name ≠ A → rec.run = some run → rec.status = "running" →
      run.stream.chat_id = chatId → run.stream.message_id = messageId →
      run.paused = true) := by
  refine ⟨?_, ?_, hArun, hApaused, ?_⟩
  · rw [pause_other_attached_runs, lookup_map_with_key, hB, Option.map_some',
      pauseStep_pauses chatId messageId A B recB runB hBA hBrun hBstat hBchat hBmsg hBpaused]
  · rw [pause_other_attached_runs, lookup_map_with_key, hA, Option.map_some',
      pauseStep_excepted chatId messageId A recA hAne]
  · intro name rec run hmem hname hrun hstat hc hm
    obtain ⟨⟨name0, rec0⟩, hmem0, heq⟩ := List.mem_map.mp hmem
    obtain ⟨hn0, hr0⟩ := Prod.mk.injEq .. ▸ heq
    subst hn0
    rcases pauseStep_preserves_or_pauses chatId messageId (some A) name0 rec0 with
      hid | ⟨run0, hrun0, hp0, hpv⟩
    · have hrec : rec = rec0 := by rw [← hr0, hid]
      by_contra hp
      have hpfalse : run.paused = false := by
        cases hq : run.paused
        · rfl
        · exact absurd hq hp
      have hpz := pauseStep_pauses chatId messageId A name0 rec0 run hname
        (by rw [← hrec]; exact hrun) (by rw [← hrec]; exact hstat) hc hm hpfalse
      rw [hid] at hpz
      have hrr : rec0.run = some ({ run with
          paused := true
          stream := { run.stream with resume_event_set := false } }) := by
        conv_lhs => rw [hpz]
      rw [← hrec, hrun] at hrr
      have h2 := Option.some.inj hrr
      have h3 : run.paused = true := by
        conv_lhs => rw [h2]
      exact absurd h3 hp
    · have hrec : rec = { rec0 with run := some ({ run0 with
          paused := true
          stream := { run0.stream with resume_event_set := false } }) } := by
        rw [← hr0, hpv]
      rw [hrec] at hrun
      simp at hrun
      rw [← hrun]

/-- Claim C5 witness: sessions "a" and "b" both run unpaused against
surface (1, 5); after pausing others excepting "a", "b" is paused with
its stream's resume event cleared and "a" is untouched. -/
theorem pause_other_attached_runs_pauses_rival_witness :
    List.lookup "b" (pause_other_attached_runs
      [("a", ⟨"running", some ⟨⟨1, 5, true⟩, false, false, none⟩⟩),
       ("b", ⟨"running", some ⟨⟨1, 5, true⟩, false, false, none⟩⟩)] 1 5 (some "a"))
      = some ⟨"running", some ⟨⟨1, 5, false⟩, true, false, none⟩⟩ ∧
    List.lookup "a" (pause_other_attached_runs
      [("a", ⟨"running", some ⟨⟨1, 5, true⟩, false, false, none⟩⟩),
       ("b", ⟨"running", some ⟨⟨1, 5, true⟩, false, false, none⟩⟩)] 1 5 (some "a"))
      = some ⟨"running", some ⟨⟨1, 5, true⟩, false, false, none⟩⟩ := by
  have h := pause_other_attached_runs_pauses_rival
    [("a", ⟨"running", some ⟨⟨1, 5, true⟩, false, false, none⟩⟩),
     ("b", ⟨"running", some ⟨⟨1, 5, true⟩, false, false, none⟩⟩)] 1 5
    "a" "b" ⟨"running", some ⟨⟨1, 5, true⟩, false, false, none⟩⟩
    ⟨"running", some ⟨⟨1, 5, true⟩, false, false, none⟩⟩
    ⟨⟨1, 5, true⟩, false, false, none⟩ ⟨⟨1, 5, true⟩, false, false, none⟩
    (by decide) (by decide) rfl rfl rfl rfl rfl rfl rfl rfl rfl rfl rfl rfl
  exact ⟨h.1, h.2.1⟩

/-! ## Claim C7 -/

/-- Claim C7: calling `stop` on a session whose child process has
already exited (its return code is recorded) reports success and
attempts no signal delivery, for every OS oracle outcome. -/
theorem stop_exited_run_succeeds_without_signals
    (sessions : List (String × SessionRecState)) (name : String)
    (rec : SessionRecState) (run : SessionRunState) (code : Int)
    (posix lookupError otherError waitTimedOut : Bool)
    (hrec : List.lookup name sessions = some rec)
    (hrun : rec.run = some run)
    (hcode : run.returncode = some code) :
    (stop sessions name posix lookupError otherError waitTimedOut).ok = true ∧
    (stop sessions name posix lookupError otherError waitTimedOut).signals = [] := by
  unfold stop
  rw [hrec]
  simp [hrun, hcode]

/-- Claim C7 witness: stopping session "a", whose process exited with
code 0, succeeds with no signal delivery. -/
theorem stop_exited_run_succeeds_without_signals_witness :
    (stop [("a", ⟨"running", some ⟨⟨1, 5, true⟩, false, false, some 0⟩⟩)]
      "a" true true true true).ok = true ∧
    (stop [("a", ⟨"running", some ⟨⟨1, 5, true⟩, false, false, some 0⟩⟩)]
      "a" true true true true).signals = [] :=
  stop_exited_run_succeeds_without_signals
    [("a", ⟨"running", some ⟨⟨1, 5, true⟩, false, false, some 0⟩⟩)]
    "a" ⟨"running", some ⟨⟨1, 5, true⟩, false, false, some 0⟩⟩
    ⟨⟨1, 5, true⟩, false, false, some 0⟩ 0 true true true true rfl rfl rfl

/-! ## Claim C9 -/

/-- Claim C9: for a prompt whose first non-whitespace character is a
dash, both engine argument vectors carry an explicit end-of-options
marker immediately before the prompt, in new and continue modes alike;
and with a recorded token in continue mode, the codex vector carries
`resume <token>` and the claude vector carries `-r <token>`. -/
theorem build_cmds_end_of_options_and_resume
    (sandboxMode approvalPolicy permissionMode claudeModelDefault : String)
    (gitDir : Option String) (rec : CmdRec) (prompt t : String)
    (hdash : lstrip_startswith_dash prompt = true)
    (ht : rec.thread_id = some t) (htne : t ≠ "") :
    (∃ pre, build_codex_cmd sandboxMode approvalPolicy gitDir rec prompt "new"
      = pre ++ ["--", prompt]) ∧
    (∃ pre, build_codex_cmd sandboxMode approvalPolicy gitDir rec prompt "continue"
      = pre ++ ["resume", t, "--", prompt]) ∧
    (∃ pre, build_claude_cmd permissionMode claudeModelDefault rec prompt "new"
      = pre ++ ["--", prompt]) ∧
    (∃ pre, build_claude_cmd permissionMode claudeModelDefault rec prompt "continue"
      = pre ++ ["-r", t, "--", prompt]) := by
  have hcontNew : continueToken "new" rec.thread_id = none := by
    simp [continueToken]
  have hcontCont : continueToken "continue" rec.thread_id = some t := by
    simp [continueToken, ht, htne]
  refine ⟨⟨codex_base sandboxMode approvalPolicy gitDir rec, ?_⟩,
    ⟨codex_base sandboxMode approvalPolicy gitDir rec, ?_⟩,
    ⟨claude_base permissionMode claudeModelDefault rec, ?_⟩,
    ⟨claude_base permissionMode claudeModelDefault rec, ?_⟩⟩
  · simp [build_codex_cmd, hcontNew, hdash]
  · simp [build_codex_cmd, hcontCont, hdash]
  · simp [build_claude_cmd, hcontNew, hdash]
  · simp [build_claude_cmd, hcontCont, hdash]

/-- Claim C9 witness: prompt "-x" with recorded token
"03a97da8-27b5-4b56-aa1f-b3231ef42f10". -/
theorem build_cmds_end_of_options_and_resume_witness :
    (∃ pre, build_codex_cmd "workspace-write" "never" none
      ⟨"/w", "gpt-5.2", "high", some "03a97da8-27b5-4b56-aa1f-b3231ef42f10"⟩ "-x" "new"
      = pre ++ ["--", "-x"]) ∧
    (∃ pre, build_codex_cmd "workspace-write" "never" none
      ⟨"/w", "gpt-5.2", "high", some "03a97da8-27b5-4b56-aa1f-b3231ef42f10"⟩ "-x" "continue"
      = pre ++ ["resume", "03a97da8-27b5-4b56-aa1f-b3231ef42f10", "--", "-x"]) ∧
    (∃ pre, build_claude_cmd "bypassPermissions" "sonnet"
      ⟨"/w", "gpt-5.2", "high", some "03a97da8-27b5-4b56-aa1f-b3231ef42f10"⟩ "-x" "new"
      = pre ++ ["--", "-x"]) ∧
    (∃ pre, build_claude_cmd "bypassPermissions" "sonnet"
      ⟨"/w", "gpt-5.2", "high", some "03a97da8-27b5-4b56-aa1f-b3231ef42f10"⟩ "-x" "continue"
      = pre ++ ["-r", "03a97da8-27b5-4b56-aa1f-b3231ef42f10", "--", "-x"]) :=
  build_cmds_end_of_options_and_resume "workspace-write" "never" "bypassPermissions"
    "sonnet" none ⟨"/w", "gpt-5.2", "high", some "03a97da8-27b5-4b56-aa1f-b3231ef42f10"⟩
    "-x" "03a97da8-27b5-4b56-aa1f-b3231ef42f10" (by decide) rfl (by decide)

/-! ## JSON values (decoded structured records) -/

/-- A decoded JSON record, as produced by `json.loads` on an engine
output line.  Object fields keep insertion order, like Python dicts. -/
inductive Json where
  | null
  | bool (b : Bool)
  | num (n : Int)
  | str (s : String)
  | arr (items : List Json)
  | obj (fields : List (String × Json))
deriving Repr

/-- Python `dict.get(key)` on an object's field list. -/
def jsonLookup : List (String × Json) → String → Option Json
  | [], _ => none
  | (k, v) :: rest, key => if k = key then some v else jsonLookup rest key

/-- Python `obj.get(key)`; `none` on a non-dict or a missing key. -/
def Json.get? : Json → String → Option Json
  | .obj fields, key => jsonLookup fields key
  | _, _ => none

/-- `obj.get(key)` when the value must be a string. -/
def Json.getStr? (j : Json) (key : String) : Option String :=
  match j.get? key with
  | some (.str s) => some s
  | _ => none

/-! ## UUID discovery (vibes.py lines 95-97, 750-794) -/

/-- `[0-9a-fA-F]`. -/
def isHexDigit (c : Char) : Bool := c.isDigit || "abcdefABCDEF".data.contains c

/-- A regex word character (`\w`), for the `\b` boundaries of `UUID_RE`. -/
def isWordChar (c : Char) : Bool := c.isAlphanum || c = '_'

/-- Match exactly `n` hex digits at the head, returning them and the rest. -/
def takeHexN : Nat → List Char → Option (List Char × List Char)
  | 0, l => some ([], l)
  | _ + 1, [] => none
  | n + 1, c :: rest =>
    if isHexDigit c then
      match takeHexN n rest with
      | some (m, r) => some (c :: m, r)
      | none => none
    else none

/-- Match a literal dash at the head. -/
def matchDash : List Char → Option (List Char)
  | '-' :: rest => some rest
  | _ => none

/-- Match the 8-4-4-4-12 hex core of `UUID_RE` at the head. -/
def matchUuidCore (l : List Char) : Option (List Char × List Char) :=
  (takeHexN 8 l).bind fun p1 =>
  (matchDash p1.2).bind fun r2 =>
  (takeHexN 4 r2).bind fun p2 =>
  (matchDash p2.2).bind fun r4 =>
  (takeHexN 4 r4).bind fun p3 =>
  (matchDash p3.2).bind fun r6 =>
  (takeHexN 4 r6).bind fun p4 =>
  (matchDash p4.2).bind fun r8 =>
  (takeHexN 12 r8).bind fun p5 =>
  some (p1.1 ++ ['-'] ++ p2.1 ++ ['-'] ++ p3.1 ++ ['-'] ++ p4.1 ++ ['-'] ++ p5.1, p5.2)

/-- `\b` holds before the match: the previous character (if any) is not a
word character. -/
def boundaryOk : Option Char → Bool
  | none => true
  | some c => !isWordChar c

/-- `UUID_RE.search`: scan left to right for the first position where the
core matches between word boundaries. -/
def uuidSearchAux : Option Char → List Char → Option String
  | _, [] => none
  | prev, c :: rest =>
    match (if boundaryOk prev then
        match matchUuidCore (c :: rest) with
        | some (m, r) =>
          match r with
          | [] => some (String.mk m)
          | c2 :: _ => if isWordChar c2 then none else some (String.mk m)
        | none => none
      else none) with
    | some s => some s
    | none => uuidSearchAux (some c) rest

/-- `UUID_RE.search(value).group(0)` on a string. -/
def uuid_search (s : String) : Option String := uuidSearchAux none s.data

/-- `_looks_like_uuid`: only strings are searched. -/
def looks_like_uuid : Json → Option String
  | .str s => uuid_search s
  | _ => none

/-- The `("session_id", "thread_id", "id")` key probe of
`_find_first_uuid`'s dict case. -/
def keyUuid (fields : List (String × Json)) (key : String) : Option String :=
  match jsonLookup fields key with
  | some v => looks_like_uuid v
  | none => none

mutual
/-- `_find_first_uuid`'s `walk`: depth-bounded scan for a UUID-shaped
value, preferring the explicit id keys at each dict level.  (The
identity-based `seen` set of the source only prunes revisited — hence
identical — subtrees, which cannot change the result on the tree-shaped
values modelled here, so it is omitted.) -/
def find_first_uuid_walk (node : Json) (depth : Nat) : Option String :=
  if depth > 6 then none
  else
    match looks_like_uuid node with
    | some u => some u
    | none =>
      match node with
      | .obj fields =>
        match (keyUuid fields "session_id" <|> keyUuid fields "thread_id"
            <|> keyUuid fields "id") with
        | some u => some u
        | none => find_first_uuid_fields fields depth
      | .arr items => find_first_uuid_list items depth
      | _ => none

/-- Walk the values of a dict, in insertion order. -/
def find_first_uuid_fields (fields : List (String × Json)) (depth : Nat) : Option String :=
  match fields with
  | [] => none
  | (_, v) :: rest =>
    match find_first_uuid_walk v (depth + 1) with
    | some u => some u
    | none => find_first_uuid_fields rest depth

/-- Walk the items of a list. -/
def find_first_uuid_list (items : List Json) (depth : Nat) : Option String :=
  match items with
  | [] => none
  | v :: rest =>
    match find_first_uuid_walk v (depth + 1) with
    | some u => some u
    | none => find_first_uuid_list rest depth
end

/-- `_find_first_uuid` with its default depth bound. -/
def find_first_uuid (obj : Json) : Option String := find_first_uuid_walk obj 0

/-! ## Explicit session-id extraction (vibes.py lines 797-822) -/

/-- Apply `_looks_like_uuid` to the first candidate that carries one. -/
def firstUuidOf : List (Option Json) → Option String
  | [] => none
  | c :: rest =>
    match (match c with
           | some v => looks_like_uuid v
           | none => none) with
    | some u => some u
    | none => firstUuidOf rest

/-- `_extract_session_id_explicit`: collect the known explicit locations
in source order and return the first UUID-shaped value among them. -/
def extract_session_id_explicit (obj : Json) : Option String :=
  firstUuidOf
    ([obj.get? "session_id", obj.get? "thread_id"]
     ++ (match obj.get? "thread" with
         | some (.obj tf) => [jsonLookup tf "id"]
         | _ => [])
     ++ (match obj.get? "session" with
         | some (.obj sf) => [jsonLookup sf "id"]
         | _ => [])
     ++ (match obj.get? "data" with
         | some (.obj df) =>
           [jsonLookup df "session_id", jsonLookup df "thread_id"]
           ++ (match jsonLookup df "thread" with
               | some (.obj tf2) => [jsonLookup tf2 "id"]
               | _ => [])
           ++ (match jsonLookup df "session" with
               | some (.obj sf2) => [jsonLookup sf2 "id"]
               | _ => [])
         | _ => []))

/-! ## Event field extraction (vibes.py lines 825-982) -/

/-- The first of `type`/`event`/`kind`/`name` holding a non-blank
string, stripped (`_get_event_type`). -/
def firstTypeKey (obj : Json) : List String → String
  | [] => ""
  | k :: rest =>
    match obj.getStr? k with
    | some s => if py_strip s ≠ "" then py_strip s else firstTypeKey obj rest
    | none => firstTypeKey obj rest

/-- `_get_event_type`. -/
def get_event_type (obj : Json) : String :=
  firstTypeKey obj ["type", "event", "kind", "name"]

/-- A candidate that is a non-empty string, as-is. -/
def strNonempty? : Option Json → Option String
  | some (.str s) => if s = "" then none else some s
  | _ => none

/-- A candidate that strips to non-blank, returned stripped. -/
def strip_nonempty? : Option Json → Option String
  | some (.str s) => if py_strip s = "" then none else some (py_strip s)
  | _ => none

/-- A candidate that strips to non-blank, returned unstripped. -/
def diff_nonempty? : Option Json → Option String
  | some (.str s) => if py_strip s = "" then none else some s
  | _ => none

/-- `_extract_text_delta`. -/
def extract_text_delta (obj : Json) : Option String :=
  match (strNonempty? (obj.get? "delta") <|> strNonempty? (obj.get? "text")
      <|> strNonempty? (obj.get? "content")) with
  | some v => some v
  | none =>
    match obj.get? "data" with
    | some (.obj df) =>
      strNonempty? (jsonLookup df "delta") <|> strNonempty? (jsonLookup df "text")
        <|> strNonempty? (jsonLookup df "content")
    | _ => none

/-- `_extract_item`. -/
def extract_item (obj : Json) : Option (List (String × Json)) :=
  match obj.get? "item" with
  | some (.obj f) => some f
  | _ =>
    match obj.get? "data" with
    | some (.obj df) =>
      match jsonLookup df "item" with
      | some (.obj f2) => some f2
      | _ => none
    | _ => none

/-- `_extract_item_type`. -/
def extract_item_type (item : List (String × Json)) : String :=
  match jsonLookup item "type" with
  | some (.str s) => py_strip s
  | _ => ""

/-- `_extract_item_text`. -/
def extract_item_text (item : List (String × Json)) : Option String :=
  strNonempty? (jsonLookup item "delta") <|> strNonempty? (jsonLookup item "text")
    <|> strNonempty? (jsonLookup item "content")

/-- `_extract_tool_command`. -/
def extract_tool_command (obj : Json) : Option String :=
  strip_nonempty? (obj.get? "command") <|> strip_nonempty? (obj.get? "cmd")
  <|> (match obj.get? "data" with
       | some (.obj df) =>
         strip_nonempty? (jsonLookup df "command") <|> strip_nonempty? (jsonLookup df "cmd")
       | _ => none)
  <|> (match obj.get? "input" with
       | some (.obj inf) => strip_nonempty? (jsonLookup inf "command")
       | _ => none)
  <|> (match obj.get? "data" with
       | some (.obj df) =>
         match jsonLookup df "input" with
         | some (.obj inf2) => strip_nonempty? (jsonLookup inf2 "command")
         | _ => none
       | _ => none)

/-- `_extract_tool_output`. -/
def extract_tool_output (obj : Json) : Option String :=
  match (strNonempty? (obj.get? "output") <|> strNonempty? (obj.get? "stdout")
      <|> strNonempty? (obj.get? "result") <|> strNonempty? (obj.get? "text")) with
  | some v => some v
  | none =>
    match obj.get? "data" with
    | some (.obj df) =>
      strNonempty? (jsonLookup df "output") <|> strNonempty? (jsonLookup df "stdout")
        <|> strNonempty? (jsonLookup df "result") <|> strNonempty? (jsonLookup df "text")
    | _ => none

/-- `_maybe_extract_diff`. -/
def maybe_extract_diff (obj : Json) : Option String :=
  match (diff_nonempty? (obj.get? "diff") <|> diff_nonempty? (obj.get? "patch")
      <|> diff_nonempty? (obj.get? "unified_diff")) with
  | some v => some v
  | none =>
    match obj.get? "data" with
    | some (.obj df) =>
      diff_nonempty? (jsonLookup df "diff") <|> diff_nonempty? (jsonLookup df "patch")
        <|> diff_nonempty? (jsonLookup df "unified_diff")
    | _ => none

/-! ## `json.dumps(obj, ensure_ascii=False, indent=2)` -/

/-- A hex digit character for `\u00XX` escapes. -/
def hexDigitChar (n : Nat) : Char :=
  if n < 10 then Char.ofNat ('0'.toNat + n) else Char.ofNat ('a'.toNat + n - 10)

/-- JSON string escaping for one character. -/
def jsonEscapeChar (c : Char) : List Char :=
  if c = '"' then ['\\', '"']
  else if c = '\\' then ['\\', '\\']
  else if c = '\n' then ['\\', 'n']
  else if c = '\x0d' then ['\\', 'r']
  else if c = '\t' then ['\\', 't']
  else if c = '\x08' then ['\\', 'b']
  else if c = '\x0c' then ['\\', 'f']
  else if c.toNat < 32 then
    ['\\', 'u', '0', '0', hexDigitChar (c.toNat / 16), hexDigitChar (c.toNat % 16)]
  else [c]

/-- A JSON string literal. -/
def jsonQuote (s : String) : String :=
  "\"" ++ String.mk (s.data.flatMap jsonEscapeChar) ++ "\""

/-- Indentation for `indent=2`. -/
def jsonIndent (level : Nat) : String := String.mk (List.replicate (2 * level) ' ')

mutual
/-- `json.dumps(·, ensure_ascii=False, indent=2)`, value case. -/
def json_dumps_val : Json → Nat → String
  | .null, _ => "null"
  | .bool b, _ => if b then "true" else "false"
  | .num n, _ => toString n
  | .str s, _ => jsonQuote s
  | .arr [], _ => "[]"
  | .arr (x :: xs), level =>
    "[\n" ++ json_dumps_items (x :: xs) (level + 1) ++ "\n" ++ jsonIndent level ++ "]"
  | .obj [], _ => "\x7b\x7d"
  | .obj (f :: fs), level =>
    "\x7b\n" ++ json_dumps_fields (f :: fs) (level + 1) ++ "\n" ++ jsonIndent level ++ "\x7d"

/-- Array items, one per line. -/
def json_dumps_items : List Json → Nat → String
  | [], _ => ""
  | [x], level => jsonIndent level ++ json_dumps_val x level
  | x :: y :: rest, level =>
    jsonIndent level ++ json_dumps_val x level ++ ",\n" ++ json_dumps_items (y :: rest) level

/-- Object fields, one per line. -/
def json_dumps_fields : List (String × Json) → Nat → String
  | [], _ => ""
  | [(k, v)], level => jsonIndent level ++ jsonQuote k ++ ": " ++ json_dumps_val v level
  | (k, v) :: g :: rest, level =>
    jsonIndent level ++ jsonQuote k ++ ": " ++ json_dumps_val v level ++ ",\n"
      ++ json_dumps_fields (g :: rest) level
end

/-- `json.dumps(obj, ensure_ascii=False, indent=2)`. -/
def json_dumps (j : Json) : String := json_dumps_val j 0

/-! ## `SessionManager._handle_json_event` (vibes.py lines 2429-2523) -/

/-- The run-engine state that `_handle_json_event` reads and writes: the
record's resumable token, whether a `SessionRun` exists, and its
`last_cmd` field. -/
structure EventState where
  thread_id : Option String
  run_present : Bool
  last_cmd : Option String
deriving DecidableEq, Repr

/-- The event types treated as thread-start notifications. -/
def thread_start_types : List String := ["thread.started", "thread_started", "thread.start"]

/-- The `command_execution` item branch: `$ cmd` echo with `last_cmd`
de-duplication, then truncated aggregated output and an exit-code line
on completion.  Returns the new `last_cmd` and the emitted texts. -/
def command_execution_effect (runPresent : Bool) (lastCmd : Option String)
    (eventType : String) (item : List (String × Json)) : Option String × List String :=
  let cmdS := match jsonLookup item "command" with
    | some (.str s) => py_strip s
    | _ => ""
  let statusStr : Option String := match jsonLookup item "status" with
    | some (.str s) => some s
    | _ => none
  let isStart := py_endswith eventType "started" || statusStr == some "in_progress"
  let isDone := py_endswith eventType "completed" || statusStr == some "completed"
    || statusStr == some "failed"
  let lastCmdRead := if runPresent then lastCmd else none
  let cmdPart : Option String × List String :=
    if (cmdS != "") && (isStart || isDone) then
      if some cmdS != lastCmdRead then
        ((if runPresent then some cmdS else lastCmd), ["\n$ " ++ cmdS ++ "\n"])
      else (lastCmd, [])
    else (lastCmd, [])
  let donePart : List String :=
    if isDone then
      (match jsonLookup item "aggregated_output" with
       | some (.str s) =>
         if py_strip s = "" then []
         else [truncate_text (py_rstrip_char s '\n') 2000 ++ "\n"]
       | _ => [])
      ++ (match jsonLookup item "exit_code" with
          | some (.num n) => ["(exit_code: " ++ toString n ++ ")\n"]
          | some (.bool b) => ["(exit_code: " ++ (if b then "True" else "False") ++ ")\n"]
          | _ => [])
    else []
  (cmdPart.1, cmdPart.2 ++ donePart)

/-- The tail of `_handle_json_event` reached when an `item.*` event had
no usable item payload: streaming text, tool use/result, diff, and the
text-delta fallback. -/
def fallback_events (eventType : String) (obj : Json) : List String :=
  if eventType = "text" then
    match extract_text_delta obj with
    | some d => [d]
    | none => []
  else if eventType = "tool_use" then
    match extract_tool_command obj with
    | some c => ["\n[tool_use]\n" ++ c ++ "\n"]
    | none => ["\n[tool_use]\n" ++ truncate_text (json_dumps obj) 2000 ++ "\n"]
  else if eventType = "tool_result" then
    match extract_tool_output obj with
    | some out => ["\n[tool_result]\n" ++ truncate_text out 2000 ++ "\n"]
    | none => ["\n[tool_result]\n" ++ truncate_text (json_dumps obj) 2000 ++ "\n"]
  else
    match maybe_extract_diff obj with
    | some d => ["\n[file_change]\n" ++ truncate_text d 2500 ++ "\n"]
    | none =>
      match extract_text_delta obj with
      | some d => [d]
      | none => []

/-- The non-thread-start part of `_handle_json_event`: the `item.*`
dispatch with its reasoning suppression and command handling, falling
through to `fallback_events`. -/
def handle_item_or_fallback (st1 : EventState) (runPresent : Bool)
    (eventType : String) (obj : Json) : EventState × List String :=
  if py_startswith eventType "item." then
    match extract_item obj with
    | some item =>
      if extract_item_type item = "reasoning" then (st1, [])
      else if extract_item_type item = "command_execution" then
        ({ st1 with last_cmd :=
            (command_execution_effect runPresent st1.last_cmd eventType item).1 },
         (command_execution_effect runPresent st1.last_cmd eventType item).2)
      else
        match extract_item_text item with
        | some t => (st1, [t])
        | none => (st1, fallback_events eventType obj)
    | none => (st1, fallback_events eventType obj)
  else (st1, fallback_events eventType obj)

/-- `SessionManager._handle_json_event` (codex engine): updates the
resumable token and `last_cmd`, and returns the texts passed to
`stream.add_text`. -/
def handle_json_event (st : EventState) (obj : Json) : EventState × List String :=
  let eventType := get_event_type obj
  let st1 :=
    match st.thread_id with
    | none =>
      match extract_session_id_explicit obj with
      | some e => { st with thread_id := some e }
      | none => st
    | some _ => st
  if eventType ∈ thread_start_types then
    match (match extract_session_id_explicit obj with
           | some s => some s
           | none => find_first_uuid obj) with
    | some s => if some s ≠ st1.thread_id then ({ st1 with thread_id := some s }, [])
        else (st1, [])
    | none => (st1, [])
  else handle_item_or_fallback st1 st.run_present eventType obj

/-! ## Claim C2 -/

theorem handle_item_or_fallback_thread_id (st1 : EventState) (runPresent : Bool)
    (eventType : String) (obj : Json) :
    (handle_item_or_fallback st1 runPresent eventType obj).1.thread_id
      = st1.thread_id := by
  unfold handle_item_or_fallback
  repeat' split
  all_goals rfl

/-- Claim C2 (amended): a recorded resumable token is never overwritten
by any event other than a thread-start notification; and whenever an
event carries an explicit token field (in the known locations), that
explicit value — never a deep-scan result — is the one recorded for a
run with no token yet, whatever else the event contains. -/
theorem thread_id_explicit_wins_and_stable_outside_thread_start
    (st : EventState) (obj : Json) (u : String) :
    (st.thread_id = some u → get_event_type obj ∉ thread_start_types →
      (handle_json_event st obj).1.thread_id = some u) ∧
    (st.thread_id = none → extract_session_id_explicit obj = some u →
      (handle_json_event st obj).1.thread_id = some u) := by
  constructor
  · intro h hnot
    unfold handle_json_event
    rw [if_neg hnot]
    rw [handle_item_or_fallback_thread_id]
    rw [h]
    exact h
  · intro h hex
    unfold handle_json_event
    rw [h, hex]
    by_cases hts : get_event_type obj ∈ thread_start_types
    · rw [if_pos hts]
      simp
    · rw [if_neg hts, handle_item_or_fallback_thread_id]

/-- Claim C2 (counterexample): a run that already recorded token
1111…, on receiving a `thread.started` event carrying a different
explicit token 2222…, has its token overwritten — refuting "never
overwritten by any later event". -/
theorem thread_id_overwritten_by_thread_start_cex :
    (handle_json_event ⟨some "11111111-1111-1111-1111-111111111111", true, none⟩
      (Json.obj [("type", Json.str "thread.started"),
                 ("thread_id", Json.str "22222222-2222-2222-2222-222222222222")])).1.thread_id
      = some "22222222-2222-2222-2222-222222222222" := by decide

/-- Claim C2 witness: a `text` event leaves the recorded token 1111…
unchanged, and an event carrying an explicit `session_id` field records
exactly that value on a fresh run. -/
theorem thread_id_explicit_wins_and_stable_witness :
    (handle_json_event ⟨some "11111111-1111-1111-1111-111111111111", true, none⟩
      (Json.obj [("type", Json.str "text"), ("text", Json.str "hi")])).1.thread_id
      = some "11111111-1111-1111-1111-111111111111" ∧
    (handle_json_event ⟨none, true, none⟩
      (Json.obj [("type", Json.str "text"),
        ("session_id", Json.str "33333333-3333-3333-3333-333333333333"),
        ("data", Json.obj [("nested", Json.obj [("field",
          Json.str "44444444-4444-4444-4444-444444444444")])])])).1.thread_id
      = some "33333333-3333-3333-3333-333333333333" :=
  ⟨(thread_id_explicit_wins_and_stable_outside_thread_start _ _ _).1 rfl (by decide),
   (thread_id_explicit_wins_and_stable_outside_thread_start _ _ _).2 rfl (by decide)⟩

/-! ## Claim C8 -/

/-- The three-record scenario exactly as the claim writes it: the
command-execution item records carry no item-level `type` field. -/
def c8_spec_run : EventState × List String :=
  let r1 := handle_json_event ⟨none, true, none⟩
    (Json.obj [("type", Json.str "item.created"),
      ("item", Json.obj [("type", Json.str "reasoning"), ("text", Json.str "X")])])
  let r2 := handle_json_event r1.1
    (Json.obj [("type", Json.str "item.command_execution.started"),
      ("item", Json.obj [("command", Json.str "ls"), ("status", Json.str "in_progress")])])
  let r3 := handle_json_event r2.1
    (Json.obj [("type", Json.str "item.command_execution.completed"),
      ("item", Json.obj [("command", Json.str "ls"), ("status", Json.str "completed"),
        ("aggregated_output", Json.str "a\nb\n"), ("exit_code", Json.num 0)])])
  (r3.1, r1.2 ++ r2.2 ++ r3.2)

/-- The same scenario with the item-level `"type": "command_execution"`
field the engine actually emits (and the repository's own log-parsing
test uses). -/
def c8_run : EventState × List String :=
  let r1 := handle_json_event ⟨none, true, none⟩
    (Json.obj [("type", Json.str "item.created"),
      ("item", Json.obj [("type", Json.str "reasoning"), ("text", Json.str "X")])])
  let r2 := handle_json_event r1.1
    (Json.obj [("type", Json.str "item.command_execution.started"),
      ("item", Json.obj [("type", Json.str "command_execution"),
        ("command", Json.str "ls"), ("status", Json.str "in_progress")])])
  let r3 := handle_json_event r2.1
    (Json.obj [("type", Json.str "item.command_execution.completed"),
      ("item", Json.obj [("type", Json.str "command_execution"),
        ("command", Json.str "ls"), ("status", Json.str "completed"),
        ("aggregated_output", Json.str "a\nb\n"), ("exit_code", Json.num 0)])])
  (r3.1, r1.2 ++ r2.2 ++ r3.2)

/-- Claim C8 (counterexample): on the three records exactly as the claim
writes them, the command items carry no item-level `type` field, so the
`command_execution` branch never fires and the normalizer appends no
segment at all — in particular none containing `$ ls`. -/
theorem normalizer_scenario_as_written_emits_nothing :
    c8_spec_run.2 = [] ∧
    c8_spec_run.2.any (fun s => py_contains s "$ ls") = false := by decide

/-- Claim C8 (amended): with the item-level `"type":"command_execution"`
field present on the command records, the appended segments contain
`$ ls`, `a`, `b` and `exit_code: 0`, and the reasoning text `X` never
appears. -/
theorem normalizer_scenario_segments :
    c8_run.2.any (fun s => py_contains s "$ ls") = true ∧
    c8_run.2.any (fun s => py_contains s "a") = true ∧
    c8_run.2.any (fun s => py_contains s "b") = true ∧
    c8_run.2.any (fun s => py_contains s "exit_code: 0") = true ∧
    c8_run.2.all (fun s => !(py_contains s "X")) = true := by decide

/-! ## Session state store (vibes.py lines 284-292, 1605-1727) -/

/-- Characters allowed by the session-name pattern `[a-zA-Z0-9._-]+`. -/
def isSessionNameChar (c : Char) : Bool :=
  c.isAlphanum || c = '.' || c = '_' || c = '-'

/-- `_safe_session_name`: strip, require non-empty, at most 64 chars,
and only pattern characters. -/
def safe_session_name (name : String) : Option String :=
  let n := py_strip name
  if n = "" then none
  else if 64 < n.length then none
  else if n.data.all isSessionNameChar then some n
  else none

/-- The persisted fields of a `SessionRecord` (the dataclass fields that
`save_state` serializes). -/
structure StoredRec where
  path : String
  engine : String
  thread_id : Option String
  model : String
  reasoning_effort : String
  status : String
  last_result : String
  created_at : String
  last_active : Option String
  last_stdout_log : Option String
  last_stderr_log : Option String
  last_run_duration_s : Option Int
  pending_delete : Bool
deriving DecidableEq, Repr

/-- An optional string serialized to JSON (`None` → `null`). -/
def optStrJson : Option String → Json
  | some s => .str s
  | none => .null

/-- The per-session payload dict built by `save_state` (vibes.py line
1711): note the `running` → `idle` coercion on the `status` field. -/
def record_payload (rec : StoredRec) : Json :=
  .obj [
    ("path", .str rec.path),
    ("engine", .str rec.engine),
    ("thread_id", optStrJson rec.thread_id),
    ("model", .str rec.model),
    ("reasoning_effort", .str rec.reasoning_effort),
    ("status", .str (if rec.status = "running" then "idle" else rec.status)),
    ("last_result", .str rec.last_result),
    ("created_at", .str rec.created_at),
    ("last_active", optStrJson rec.last_active),
    ("last_stdout_log", optStrJson rec.last_stdout_log),
    ("last_stderr_log", optStrJson rec.last_stderr_log),
    ("last_run_duration_s",
      match rec.last_run_duration_s with
      | some n => .num n
      | none => .null),
    ("pending_delete", .bool rec.pending_delete)
  ]

/-- The `"sessions"` object of the `save_state` payload. -/
def save_sessions_json (sessions : List (String × StoredRec)) : Json :=
  .obj (sessions.map (fun p => (p.1, record_payload p.2)))

/-- One loop iteration of `_load_state` over a `(name, payload)` entry:
`none` when the record is skipped.  `rewriteLegacy` stands for
`_rewrite_legacy_log_path` (filesystem-dependent), `claudeDefault` for
`_claude_model_default()` and `nowIso` for `_utc_now_iso()`. -/
def load_record (rewriteLegacy : String → String) (claudeDefault nowIso : String)
    (name : String) (payload : Json) : Option (String × StoredRec) :=
  match payload with
  | .obj _ =>
    match safe_session_name name with
    | none => none
    | some safeName =>
      match payload.get? "path" with
      | some (.str path) =>
        if path = "" then none
        else
          let engine := match payload.get? "engine" with
            | some (.str e) => if e = "codex" ∨ e = "claude" then e else "codex"
            | _ => "codex"
          let modelDefault := if engine = "claude" then claudeDefault else "gpt-5.2"
          let model := match payload.get? "model" with
            | some (.str m) => if m = "" then modelDefault else m
            | _ => modelDefault
          let threadId := match payload.get? "thread_id" with
            | some (.str t) => some t
            | _ =>
              match payload.get? "session_id" with
              | some (.str t2) => some t2
              | _ => none
          let reasonFallback := match payload.get? "model_reasoning_effort" with
            | some (.str r2) => if r2 = "" then "high" else r2
            | _ => "high"
          let reason := match payload.get? "reasoning_effort" with
            | some (.str r) => if r = "" then reasonFallback else r
            | _ => reasonFallback
          let status := match payload.get? "status" with
            | some (.str s) => s
            | _ => "idle"
          let lastResult := match payload.get? "last_result" with
            | some (.str l) =>
              if l = "never" ∨ l = "success" ∨ l = "error" ∨ l = "stopped" then l
              else "never"
            | _ => "never"
          let createdAt := match payload.get? "created_at" with
            | some (.str c) => c
            | _ => nowIso
          let lastActive := match payload.get? "last_active" with
            | some (.str a) => some a
            | _ => none
          let stdoutLog := match payload.get? "last_stdout_log" with
            | some (.str s) => some s
            | _ => none
          let stderrLog := match payload.get? "last_stderr_log" with
            | some (.str s) => some s
            | _ => none
          let duration : Option Int := match payload.get? "last_run_duration_s" with
            | some (.num n) => some n
            | some (.bool b) => some (if b then 1 else 0)
            | _ => none
          let pendingDelete := match payload.get? "pending_delete" with
            | some (.bool b) => b
            | _ => false
          let stdoutLog2 := match stdoutLog with
            | some s => if s = "" then some s else some (rewriteLegacy s)
            | none => none
          let stderrLog2 := match stderrLog with
            | some s => if s = "" then some s else some (rewriteLegacy s)
            | none => none
          let status2 := if status = "running" then "idle" else status
          some (safeName, ⟨path, engine, threadId, model, reason, status2, lastResult,
            createdAt, lastActive, stdoutLog2, stderrLog2, duration, pendingDelete⟩)
      | _ => none
  | _ => none

/-- The `_load_state` loop over the `"sessions"` entries, building the
fresh store's session dict in insertion order. -/
def load_sessions_go (rewriteLegacy : String → String) (claudeDefault nowIso : String) :
    List (String × Json) → List (String × StoredRec) → List (String × StoredRec)
  | [], acc => acc
  | (name, payload) :: rest, acc =>
    match load_record rewriteLegacy claudeDefault nowIso name payload with
    | some (sn, rec) => load_sessions_go rewriteLegacy claudeDefault nowIso rest
        (dictSet acc sn rec)
    | none => load_sessions_go rewriteLegacy claudeDefault nowIso rest acc

/-- The sessions part of `_load_state` on a raw `"sessions"` value. -/
def load_sessions (rewriteLegacy : String → String) (claudeDefault nowIso : String)
    (j : Json) : List (String × StoredRec) :=
  match j with
  | .obj entries => load_sessions_go rewriteLegacy claudeDefault nowIso entries []
  | _ => []

/-- The `running` → `idle` status coercion applied on load. -/
def coerce_loaded (rec : StoredRec) : StoredRec :=
  { rec with status := if rec.status = "running" then "idle" else rec.status }

/-- A record the loader accepts verbatim: valid name, non-empty path,
known engine, non-empty model and reasoning effort, known last-result,
and log paths that the legacy rewriting leaves unchanged. -/
def ValidStoredRec (rewriteLegacy : String → String) (name : String)
    (rec : StoredRec) : Prop :=
  safe_session_name name = some name ∧
  rec.path ≠ "" ∧
  (rec.engine = "codex" ∨ rec.engine = "claude") ∧
  rec.model ≠ "" ∧
  rec.reasoning_effort ≠ "" ∧
  (rec.last_result = "never" ∨ rec.last_result = "success" ∨
    rec.last_result = "error" ∨ rec.last_result = "stopped") ∧
  (∀ s, rec.last_stdout_log = some s → s ≠ "" → rewriteLegacy s = s) ∧
  (∀ s, rec.last_stderr_log = some s → s ≠ "" → rewriteLegacy s = s)

/-! ## Claim C6 -/

theorem log_load (rw : String → String) (o : Option String)
    (h : ∀ s, o = some s → s ≠ "" → rw s = s) :
    (match (match some (optStrJson o) with
            | some (Json.str s) => some s
            | _ => (none : Option String)) with
     | some s => if s = "" then some s else some (rw s)
     | none => none) = o := by
  cases o with
  | none => rfl
  | some s =>
    by_cases hs : s = ""
    · simp [optStrJson, hs]
    · simp [optStrJson, hs, h s rfl hs]

theorem coerce_idem (st : String) :
    (if (if st = "running" then "idle" else st) = "running" then "idle"
     else (if st = "running" then "idle" else st))
      = (if st = "running" then "idle" else st) := by
  by_cases h : st = "running" <;> simp [h]

theorem load_record_payload_round_trip (rw : String → String) (cd now : String)
    (name : String) (rec : StoredRec) (h : ValidStoredRec rw name rec) :
    load_record rw cd now name (record_payload rec) = some (name, coerce_loaded rec) := by
  obtain ⟨hname, hpath, hengine, hmodel, hreason, hlast, hso, hse⟩ := h
  have hpath2 : (rec.path = "") = False := eq_false hpath
  have hengine2 : (rec.engine = "codex" ∨ rec.engine = "claude") = True := eq_true hengine
  have hmodel2 : (rec.model = "") = False := eq_false hmodel
  have hreason2 : (rec.reasoning_effort = "") = False := eq_false hreason
  have hlast2 : (rec.last_result = "never" ∨ rec.last_result = "success" ∨
      rec.last_result = "error" ∨ rec.last_result = "stopped") = True := eq_true hlast
  have hlog1 := log_load rw rec.last_stdout_log hso
  have hlog2 := log_load rw rec.last_stderr_log hse
  simp only [optStrJson] at hlog1 hlog2
  cases htid : rec.thread_id <;> cases hla : rec.last_active <;>
    cases hdu : rec.last_run_duration_s <;>
    simp [load_record, record_payload, Json.get?, jsonLookup, optStrJson, hname,
      hpath2, hengine2, hmodel2, hreason2, hlast2, coerce_loaded, htid, hla, hdu,
      hlog1, hlog2, coerce_idem]

theorem dictSet_append {α β : Type} [DecidableEq α] (l : List (α × β)) (k : α) (v : β)
    (h : ∀ p ∈ l, p.1 ≠ k) : dictSet l k v = l ++ [(k, v)] := by
  induction l with
  | nil => rfl
  | cons p rest ih =>
    obtain ⟨a, b⟩ := p
    have ha : a ≠ k := h (a, b) (List.mem_cons_self _ _)
    rw [dictSet, if_neg ha, ih]
    · rfl
    · intro q hq
      exact h q (List.mem_cons_of_mem _ hq)

theorem load_sessions_go_spec (rw : String → String) (cd now : String)
    (sessions : List (String × StoredRec)) :
    ∀ acc : List (String × StoredRec),
      (∀ p ∈ sessions, ValidStoredRec rw p.1 p.2) →
      (∀ p ∈ acc, ∀ q ∈ sessions, p.1 ≠ q.1) →
      (sessions.map Prod.fst).Nodup →
      load_sessions_go rw cd now (sessions.map (fun p => (p.1, record_payload p.2))) acc
        = acc ++ sessions.map (fun p => (p.1, coerce_loaded p.2)) := by
  induction sessions with
  | nil =>
    intro acc _ _ _
    simp [load_sessions_go]
  | cons p rest ih =>
    intro acc hv hdis hnodup
    obtain ⟨n, r⟩ := p
    have hval : ValidStoredRec rw n r := hv (n, r) (List.mem_cons_self _ _)
    rw [List.map_cons, load_sessions_go,
      load_record_payload_round_trip rw cd now n r hval]
    dsimp only
    rw [dictSet_append acc n (coerce_loaded r)
      (fun q hq => hdis q hq (n, r) (List.mem_cons_self _ _))]
    rw [ih (acc ++ [(n, coerce_loaded r)])
      (fun q hq => hv q (List.mem_cons_of_mem _ hq))
      ?_ ?_]
    · simp
    · intro q hq z hz
      rcases List.mem_append.mp hq with hq1 | hq2
      · exact hdis q hq1 z (List.mem_cons_of_mem _ hz)
      · have hqn : q = (n, coerce_loaded r) := by simpa using hq2
        rw [List.map_cons, List.nodup_cons] at hnodup
        intro hqz
        apply hnodup.1
        rw [hqn] at hqz
        simp only at hqz
        rw [hqz]
        exact List.mem_map.mpr ⟨z, hz, rfl⟩
    · rw [List.map_cons, List.nodup_cons] at hnodup
      exact hnodup.2

/-- Claim C6: saving the sessions of a store and loading them into a
fresh store yields, for every record the loader accepts (valid name and
path, known engine, non-empty model/reasoning-effort, known last-result,
legacy-rewrite-stable log paths), a record equal field for field to the
saved one, except that a `running` status becomes `idle`. -/
theorem save_load_round_trip (rw : String → String) (cd now : String)
    (sessions : List (String × StoredRec))
    (hvalid : ∀ p ∈ sessions, ValidStoredRec rw p.1 p.2)
    (hnodup : (sessions.map Prod.fst).Nodup) :
    load_sessions rw cd now (save_sessions_json sessions)
      = sessions.map (fun p => (p.1, coerce_loaded p.2)) := by
  unfold load_sessions save_sessions_json
  have := load_sessions_go_spec rw cd now sessions [] hvalid (by simp) hnodup
  simpa using this

/-- Claim C6 witness: one concrete record with a `running` status and a
recorded token round-trips to the same record with status `idle`. -/
theorem save_load_round_trip_witness :
    load_sessions (fun s => s) "sonnet" "2026-01-01T00:00:00+00:00"
      (save_sessions_json
        [("s1", ⟨"/work/proj", "codex", some "11111111-1111-1111-1111-111111111111",
          "gpt-5.2", "high", "running", "success", "2025-12-31T00:00:00+00:00",
          some "2025-12-31T01:00:00+00:00", some "/logs/s1.stdout.jsonl",
          some "/logs/s1.stderr.txt", some 42, false⟩)])
      = [("s1", ⟨"/work/proj", "codex", some "11111111-1111-1111-1111-111111111111",
          "gpt-5.2", "high", "idle", "success", "2025-12-31T00:00:00+00:00",
          some "2025-12-31T01:00:00+00:00", some "/logs/s1.stdout.jsonl",
          some "/logs/s1.stderr.txt", some 42, false⟩)] := by
  have h := save_load_round_trip (fun s => s) "sonnet" "2026-01-01T00:00:00+00:00"
    [("s1", ⟨"/work/proj", "codex", some "11111111-1111-1111-1111-111111111111",
      "gpt-5.2", "high", "running", "success", "2025-12-31T00:00:00+00:00",
      some "2025-12-31T01:00:00+00:00", some "/logs/s1.stdout.jsonl",
      some "/logs/s1.stderr.txt", some 42, false⟩)]
    ?_ ?_
  · simpa [coerce_loaded] using h
  · intro p hp
    have hp2 : p = ("s1", ⟨"/work/proj", "codex",
        some "11111111-1111-1111-1111-111111111111",
        "gpt-5.2", "high", "running", "success", "2025-12-31T00:00:00+00:00",
        some "2025-12-31T01:00:00+00:00", some "/logs/s1.stdout.jsonl",
        some "/logs/s1.stderr.txt", some 42, false⟩) := by simpa using hp
    subst hp2
    refine ⟨by decide, by decide, by decide, by decide, by decide, by decide, ?_, ?_⟩
    · intro s _ _
      rfl
    · intro s _ _
      rfl
  · simp

/-! ## Claim C10 -/

/-- The field list of the serialized `"sessions"` object. -/
def sessionsFieldsOf : Json → List (String × Json)
  | .obj fields => fields
  | _ => []

/-- Claim C10: the serialized payload never records a `running` status —
each persisted session's `status` field is the record's status with
`running` already coerced to `idle` at save time. -/
theorem save_state_never_persists_running (sessions : List (String × StoredRec)) :
    ∀ name payload, (name, payload) ∈ sessionsFieldsOf (save_sessions_json sessions) →
      payload.get? "status" ≠ some (Json.str "running") := by
  intro name payload hmem
  have hmem2 : (name, payload) ∈ sessions.map (fun p => (p.1, record_payload p.2)) := hmem
  obtain ⟨⟨n0, r0⟩, hmem0, heq⟩ := List.mem_map.mp hmem2
  obtain ⟨hn, hp⟩ := Prod.mk.injEq .. ▸ heq
  have hstat : payload.get? "status"
      = some (Json.str (if r0.status = "running" then "idle" else r0.status)) := by
    rw [← hp]
    simp [record_payload, Json.get?, jsonLookup]
  rw [hstat]
  intro hcontra
  have hveq : (if r0.status = "running" then "idle" else r0.status) = "running" := by
    have h1 := Option.some.inj hcontra
    injection h1
  by_cases hr : r0.status = "running"
  · rw [if_pos hr] at hveq
    exact absurd hveq (by decide)
  · rw [if_neg hr] at hveq
    exact hr hveq

/-- Claim C10 witness: the payload of a concrete `running` record
carries status `idle`, not `running`. -/
theorem save_state_never_persists_running_witness :
    (record_payload ⟨"/work/proj", "codex", none, "gpt-5.2", "high", "running",
      "never", "2025-12-31T00:00:00+00:00", none, none, none, none, false⟩).get? "status"
      ≠ some (Json.str "running") :=
  save_state_never_persists_running
    [("s1", ⟨"/work/proj", "codex", none, "gpt-5.2", "high", "running",
      "never", "2025-12-31T00:00:00+00:00", none, none, none, none, false⟩)]
    "s1"
    (record_payload ⟨"/work/proj", "codex", none, "gpt-5.2", "high", "running",
      "never", "2025-12-31T00:00:00+00:00", none, none, none, none, false⟩)
    (List.mem_singleton.mpr rfl)

end Vibes
